import Mathlib

set_option linter.unusedVariables false

/-
Verification development for the ShinySDR state-streaming protocol
(shinysdr/web.py: _StateStreamObjectRegistration and StateStreamInner) and for
the persistence subsystem (shinysdr/i/persistence.py, available only through
its test suite; modelled from the specification where noted).

Modelling conventions for the state stream:
  * Python objects (cells, blocks, plain objects) are identified by natural
    numbers; the external world supplies, for each object id, its kind
    (StreamCell / scalar BaseCell / block-valued BaseCell / ExportedState /
    neither) and its current value, block target, state mapping, description
    and interface list.  The world is fixed during one synchronous operation.
  * Python dictionaries are modelled as association lists; dictionary
    equality is extensional (same keys, same values), matching Python ==.
    Dictionary iteration order in CPython is arbitrary; where the source
    relies on sorting to erase that order the model keeps the stored list
    order abstract and the determinism claim quantifies over permutations.
  * Registration objects live in a heap keyed by their serial (serials are
    unique and never reused, so a serial identifies one registration
    object); both session tables alias into that heap, which mirrors the
    Python aliasing of one registration object from two dictionaries.
  * Exceptions are modelled by Except; recursion through the object graph is
    bounded by explicit fuel (running out of fuel is a model artifact,
    reported as Err.fuelOut and excluded by the theorems).
  * reactor.callLater(0, flush) is modelled by a list of outstanding timer
    ids plus the recorded DelayedCall handle (batchDelay); a timer id is
    active while it is in the outstanding list.
-/

namespace StateStream

/-- Scalar values carried by cells and wire messages (JSON-able payloads). -/
inductive Val where
  | num (n : Int)
  | str (s : String)
  | null
deriving DecidableEq, Repr

/-- Kind of a registered object, as discovered by the isinstance tests in
_StateStreamObjectRegistration.__init__ and StateStreamInner._lookup_or_register:
StreamCell, other BaseCell split by isBlock(), ExportedState, or neither. -/
inductive ObjKind where
  | streamCell
  | scalarCell
  | blockCell
  | exported
  | plain
deriving DecidableEq, Repr

/-- True for the BaseCell kinds. -/
def ObjKind.isCell : ObjKind → Bool
  | .streamCell => true
  | .scalarCell => true
  | .blockCell => true
  | .exported => false
  | .plain => false

/-- The external collaborators (cells, blocks) of one session, fixed during a
synchronous operation: kind, scalar value of a cell (get), block target of a
block-valued cell (get), state mapping of a block (state()), description and
interface list used by the register messages. -/
structure World where
  kind : Nat → ObjKind
  cellValue : Nat → Val
  cellBlock : Nat → Nat
  blockState : Nat → List (String × Nat)
  cellDesc : Nat → Val
  interfaces : Nat → List String

/-- The previous_value slot of a registration: either the single-entry dict
storing a scalar (set_previous with is_references false always stores a dict
with the one key value) or a dict of object references (is_references true). -/
inductive StoredValue where
  | dictScalar (v : Val)
  | dictRefs (m : List (String × Nat))
deriving DecidableEq, Repr

/-- Non-binary wire messages (the JSON tuples passed to _send1). -/
inductive Msg where
  | register_cell (serial : Nat) (url : String) (desc : Val)
  | register_block (serial : Nat) (url : String) (ifaces : List String)
  | register (serial : Nat) (url : String)
  | valueScalar (serial : Nat) (v : Val)
  | valueSingle (serial : Nat) (ref : Nat)
  | valueMap (serial : Nat) (m : List (String × Nat))
  | delete (serial : Nat)
  | done (messageId : Val)
deriving DecidableEq, Repr

/-- A value handed to _send1: a JSON message or packed binary data
(serial prefix plus payload bytes). -/
inductive WireValue where
  | msg (m : Msg)
  | bin (serial : Nat) (payload : List Nat)
deriving DecidableEq, Repr

/-- One call of the underlying send callback: a serialized batch frame
(unicode(_serialize(self._send_batch))) or a direct unbuffered send. -/
inductive Frame where
  | batchFrame (msgs : List WireValue)
  | rawFrame (v : WireValue)
deriving DecidableEq, Repr

/-- Exceptions. -/
inductive Err where
  | keyError
  | typeError
  | valueError
  | appError (msg : String)
  | fuelOut
deriving DecidableEq, Repr

/-- One _StateStreamObjectRegistration: its object, serial, url, the
previous-value slot with its two flags, deadness, refcount and whether its
poller registration is still subscribed. -/
structure Reg where
  obj : Nat
  serial : Nat
  url : String
  hasPreviousValue : Bool
  previousValue : Option StoredValue
  valueIsReferences : Bool
  dead : Bool
  refcount : Int
  objIsCell : Bool
  pollerSubscribed : Bool
deriving DecidableEq, Repr

/-- State of one StateStreamInner session. heap holds every registration
object ever created, keyed by serial; objTable is _registered_objs (object id
to serial); serialTable is the key set of __registered_serials (the
registration itself is heap[serial]); sendBatch is _send_batch; batchDelay is
the recorded DelayedCall handle; outstanding are the scheduled,
not-yet-fired flush timers; frames is the transcript of _send calls. -/
structure SS where
  heap : List (Nat × Reg)
  objTable : List (Nat × Nat)
  serialTable : List Nat
  lastSerial : Nat
  sendBatch : List WireValue
  batchDelay : Option Nat
  outstanding : List Nat
  nextTimer : Nat
  frames : List Frame
  logMsgs : Nat
  dirty : Nat
deriving DecidableEq, Repr

/-- Association-list lookup (Python dict access). -/
def alGet {α β : Type} [DecidableEq α] : List (α × β) → α → Option β
  | [], _ => none
  | (k, v) :: rest, k' => if k = k' then some v else alGet rest k'

/-- Association-list update (Python dict assignment), preserving entry order. -/
def alSet {α β : Type} [DecidableEq α] : List (α × β) → α → β → List (α × β)
  | [], k, v => [(k, v)]
  | (k0, v0) :: rest, k, v =>
      if k0 = k then (k, v) :: rest else (k0, v0) :: alSet rest k v

/-- Association-list deletion of the first entry with the given key
(Python del d[k]; the callers check presence separately). -/
def alDel {α β : Type} [DecidableEq α] : List (α × β) → α → List (α × β)
  | [], _ => []
  | (k0, v0) :: rest, k =>
      if k0 = k then rest else (k0, v0) :: alDel rest k

/-- Dictionary lookup raising KeyError on a missing key. -/
def getK {α : Type} : Option α → Except Err α
  | some a => Except.ok a
  | none => Except.error Err.keyError

/-- Python list.sort() on a list of object ids. -/
def sortNat (l : List Nat) : List Nat :=
  List.insertionSort (fun a b => a ≤ b) l

/-- Extensional equality of two name-to-object dictionaries (Python ==
between dicts: same key set, same value at every key). -/
def dictEqB (m1 m2 : List (String × Nat)) : Bool :=
  m1.all (fun kv => alGet m2 kv.1 == some kv.2) &&
  m2.all (fun kv => alGet m1 kv.1 == some kv.2)

/-- StateStreamInner._flush: forget the DelayedCall handle, then, if the
batch is nonempty, send it as one serialized frame and clear it. -/
def flush (st : SS) : SS :=
  let st1 : SS := { st with batchDelay := none }
  if st1.sendBatch.length > 0 then
    { st1 with frames := st1.frames ++ [Frame.batchFrame st1.sendBatch],
               sendBatch := [] }
  else st1

/-- Whether the recorded DelayedCall handle exists and is still active
(self.batchDelay is not None and self.batchDelay.active()). -/
def recordedTimerActive (st : SS) : Bool :=
  match st.batchDelay with
  | some t => st.outstanding.contains t
  | none => false

/-- reactor.callLater(0, self._flush): allocate a fresh timer id, add it to
the outstanding set and record it as the batch-delay handle. -/
def scheduleFlush (st : SS) : SS :=
  { st with outstanding := st.outstanding ++ [st.nextTimer],
            nextTimer := st.nextTimer + 1,
            batchDelay := some st.nextTimer }

/-- StateStreamInner._send1. Binary: flush pending batched messages, then
send the value immediately and unbuffered. Non-binary: append to the batch
and schedule a flush unless the recorded handle is still active. -/
def send1 (binary : Bool) (v : WireValue) (st : SS) : SS :=
  if binary then
    let st1 := flush st
    { st1 with frames := st1.frames ++ [Frame.rawFrame v] }
  else
    let st1 : SS := { st with sendBatch := st.sendBatch ++ [v] }
    if recordedTimerActive st1 then st1 else scheduleFlush st1

/-- The reactor fires one scheduled flush timer: it becomes inactive and
_flush runs. Firing an unknown or spent id does nothing. -/
def fireFlushTimer (t : Nat) (st : SS) : SS :=
  if st.outstanding.contains t then
    flush { st with outstanding := st.outstanding.erase t }
  else st

/-- _StateStreamObjectRegistration.set_previous: when is_references, check
every referenced object is registered; then store the value and flags. -/
def set_previous (s : Nat) (v : StoredValue) (is_refs : Bool) (st : SS) :
    Except Err SS := do
  let r ← getK (alGet st.heap s)
  let ok1 : Bool :=
    if is_refs then
      match v with
      | .dictRefs m => m.all (fun kv => (alGet st.objTable kv.2).isSome)
      | .dictScalar _ => false
    else true
  if ok1 then
    let r1 : Reg := { r with hasPreviousValue := true, previousValue := some v,
                             valueIsReferences := is_refs }
    Except.ok { st with heap := alSet st.heap s r1 }
  else Except.error (Err.appError "previous value not registered")

/-- _StateStreamObjectRegistration.maybesend (scalar cells): if there is no
previous value or the compare value differs from the stored one, store the
compare value and emit a value message carrying the update value. -/
def maybesend (s : Nat) (compare_value update_value : Val) (st : SS) :
    Except Err SS := do
  let r ← getK (alGet st.heap s)
  let differs ←
    if r.hasPreviousValue then
      match r.previousValue with
      | some (.dictScalar pv) => Except.ok (decide (compare_value ≠ pv))
      | some (.dictRefs m) =>
          match alGet m "value" with
          | some _ => Except.ok true
          | none => Except.error Err.keyError
      | none => Except.error Err.typeError
    else Except.ok true
  if differs then do
    let st1 ← set_previous s (.dictScalar compare_value) false st
    Except.ok (send1 false (.msg (.valueScalar s update_value)) st1)
  else Except.ok st

/-- StateStreamInner.__drop: look the object up, unsubscribe the poller
registration, delete the serial-table and object-table entries. -/
def drop_obj (o : Nat) (st : SS) : Except Err SS := do
  let s ← getK (alGet st.objTable o)
  let r ← getK (alGet st.heap s)
  let rUnsub : Reg := { r with pollerSubscribed := false }
  let st1 : SS := { st with heap := alSet st.heap s rUnsub }
  if r.serial ∈ st1.serialTable then
    let st2 : SS := { st1 with serialTable := st1.serialTable.erase r.serial }
    if (alGet st2.objTable o).isSome then
      Except.ok { st2 with objTable := alDel st2.objTable o }
    else Except.error Err.keyError
  else Except.error Err.keyError

/-- StateStreamInner.do_delete: emit a delete message for the registration
serial, then drop its object from both tables. -/
def do_delete (s : Nat) (st : SS) : Except Err SS := do
  let r ← getK (alGet st.heap s)
  let st1 := send1 false (.msg (.delete r.serial)) st
  drop_obj r.obj st1

/-- The sorted reference list captured by dec_refcount_and_maybe_notify from
a previous value known to hold references (previous_value.values() sorted). -/
def capturedRefs (pv : Option StoredValue) : Except Err (List Nat) :=
  match pv with
  | some (.dictRefs m) => Except.ok (sortNat (m.map Prod.snd))
  | _ => Except.error Err.typeError

mutual

/-- _StateStreamObjectRegistration.dec_refcount_and_maybe_notify: decrement
the refcount; on zero mark dead, do_delete, capture the sorted references of
the previous value, clear the previous-value slot, then decrement every
captured reference recursively. -/
def dec_refcount_and_maybe_notify : Nat → Nat → SS → Except Err SS
  | 0, _, _ => Except.error Err.fuelOut
  | fuel + 1, s, st => do
    let r ← getK (alGet st.heap s)
    if r.dead then Except.error (Err.appError "decing dead reference")
    else
      let r1 := { r with refcount := r.refcount - 1 }
      let st1 : SS := { st with heap := alSet st.heap s r1 }
      if r1.refcount = 0 then do
        let r2 : Reg := { r1 with dead := true }
        let st2 : SS := { st1 with heap := alSet st1.heap s r2 }
        let st3 ← do_delete s st2
        let r3 ← getK (alGet st3.heap s)
        let refs ← if r3.valueIsReferences then capturedRefs r3.previousValue
                   else Except.ok []
        let r4 : Reg := { r3 with previousValue := none, hasPreviousValue := false,
                                  valueIsReferences := false }
        let st4 : SS := { st3 with heap := alSet st3.heap s r4 }
        decRefList fuel refs st4
      else Except.ok st1
termination_by structural fuel s st => fuel

/-- The decrement loop at the end of dec_refcount_and_maybe_notify: look
each object up in _registered_objs (KeyError when missing) and decrement. -/
def decRefList : Nat → List Nat → SS → Except Err SS
  | _, [], st => Except.ok st
  | 0, _ :: _, _ => Except.error Err.fuelOut
  | fuel + 1, o :: os, st => do
    let s ← getK (alGet st.objTable o)
    let st1 ← dec_refcount_and_maybe_notify fuel s st
    decRefList fuel os st1
termination_by structural fuel os st => fuel

end

/-- The release loop of maybesend_reference: for each old reference in
sorted order, fail loudly when it is not registered, then decrement it. -/
def decOldRefs : Nat → List Nat → SS → Except Err SS
  | _, [], st => Except.ok st
  | 0, _ :: _, _ => Except.error Err.fuelOut
  | fuel + 1, o :: os, st =>
    match alGet st.objTable o with
    | none => Except.error (Err.appError "previous value not registered")
    | some s => do
      let st1 ← dec_refcount_and_maybe_notify fuel s st
      decOldRefs fuel os st1

/-- The increment loop of maybesend_reference: inc_refcount on every child
registration (raising on a dead one). -/
def incList : List (String × Nat) → SS → Except Err SS
  | [], st => Except.ok st
  | (_, s) :: rest, st => do
    let r ← getK (alGet st.heap s)
    if r.dead then Except.error (Err.appError "incing dead reference")
    else
      let r1 : Reg := { r with refcount := r.refcount + 1 }
      incList rest { st with heap := alSet st.heap s r1 }

/-- Python inequality between the new name-to-object dict and the stored
previous value (objs != self.previous_value). A stored scalar dict or an
absent dict is never equal to a reference dict. -/
def prevDiffers (pv : Option StoredValue) (objs : List (String × Nat)) : Bool :=
  match pv with
  | some (.dictRefs m) => ! dictEqB objs m
  | _ => true

mutual

/-- StateStreamInner._lookup_or_register: return an existing registration
unchanged; otherwise allocate the next serial, build a refcount-0
registration, insert it in both tables, emit the kind-specific register
message (setting the previous value for plain scalar cells), invoke
send_now_if_needed, and return the new registration serial. -/
def lookup_or_register (w : World) : Nat → Nat → String → SS → Except Err (SS × Nat)
  | 0, _, _, _ => Except.error Err.fuelOut
  | fuel + 1, o, url, st =>
    match alGet st.objTable o with
    | some s => Except.ok (st, s)
    | none => do
      let serial := st.lastSerial + 1
      let reg0 : Reg :=
        { obj := o, serial := serial, url := url, hasPreviousValue := false,
          previousValue := none, valueIsReferences := false, dead := false,
          refcount := 0, objIsCell := (w.kind o).isCell, pollerSubscribed := true }
      let st1 : SS := { st with lastSerial := serial,
                                heap := alSet st.heap serial reg0,
                                objTable := alSet st.objTable o serial,
                                serialTable := st.serialTable ++ [serial] }
      let st2 ←
        match w.kind o with
        | .streamCell =>
            Except.ok (send1 false (.msg (.register_cell serial url (w.cellDesc o))) st1)
        | .blockCell =>
            Except.ok (send1 false (.msg (.register_cell serial url (w.cellDesc o))) st1)
        | .scalarCell =>
            set_previous serial (.dictScalar (w.cellValue o)) false
              (send1 false (.msg (.register_cell serial url (w.cellDesc o))) st1)
        | .exported =>
            Except.ok (send1 false (.msg (.register_block serial url (w.interfaces o))) st1)
        | .plain =>
            Except.ok (send1 false (.msg (.register serial url)) st1)
      let st3 ← send_now_if_needed w fuel serial st2
      Except.ok (st3, serial)
termination_by structural fuel o url st => fuel

/-- The send_now_if_needed hook chosen in the registration constructor:
nothing for a StreamCell, listen_cell for other cells, listen_state over the
current state mapping otherwise. -/
def send_now_if_needed (w : World) : Nat → Nat → SS → Except Err SS
  | 0, _, _ => Except.error Err.fuelOut
  | fuel + 1, s, st => do
    let r ← getK (alGet st.heap s)
    match w.kind r.obj with
    | .streamCell => Except.ok st
    | .scalarCell => listen_cell w fuel s st
    | .blockCell => listen_cell w fuel s st
    | .exported => listen_state w fuel s (w.blockState r.obj) st
    | .plain => listen_state w fuel s (w.blockState r.obj) st
termination_by structural fuel s st => fuel

/-- _StateStreamObjectRegistration.__listen_cell: nothing when dead; for a
block-valued cell, register the block and push the single-reference dict;
for a scalar cell, maybesend its current value. -/
def listen_cell (w : World) : Nat → Nat → SS → Except Err SS
  | 0, _, _ => Except.error Err.fuelOut
  | fuel + 1, s, st => do
    let r ← getK (alGet st.heap s)
    if r.dead then Except.ok st
    else
      match w.kind r.obj with
      | .streamCell => Except.error (Err.appError "should not happen: StreamCell here")
      | .blockCell => do
          let b := w.cellBlock r.obj
          let p ← lookup_or_register w fuel b r.url st
          maybesend_reference w fuel s [("value", b)] true p.1
      | .scalarCell => maybesend s (w.cellValue r.obj) (w.cellValue r.obj) st
      | .exported => Except.error Err.typeError
      | .plain => Except.error Err.typeError
termination_by structural fuel s st => fuel

/-- _StateStreamObjectRegistration.__listen_state: nothing when dead,
otherwise push the full state mapping as a reference dict. -/
def listen_state (w : World) : Nat → Nat → List (String × Nat) → SS → Except Err SS
  | 0, _, _, _ => Except.error Err.fuelOut
  | fuel + 1, s, stateMap, st => do
    let r ← getK (alGet st.heap s)
    if r.dead then Except.ok st
    else maybesend_reference w fuel s stateMap false st
termination_by structural fuel s stateMap st => fuel

/-- _StateStreamObjectRegistration.__maybesend_reference: register every
referenced object; if the dict differs from the previous value, increment
all new registrations, emit the value message (single serial or serial
dict), release the old references in sorted order, and store the new dict. -/
def maybesend_reference (w : World) : Nat → Nat → List (String × Nat) → Bool → SS → Except Err SS
  | 0, _, _, _, _ => Except.error Err.fuelOut
  | fuel + 1, s, objs, is_single, st => do
    let r0 ← getK (alGet st.heap s)
    let p ← regChildren w fuel r0.url objs st
    let st1 := p.1
    let serials := p.2
    let r1 ← getK (alGet st1.heap s)
    if (! r1.hasPreviousValue) || prevDiffers r1.previousValue objs then do
      let st2 ← incList serials st1
      let st3 ←
        if is_single then do
          let vs ← getK (alGet serials "value")
          Except.ok (send1 false (.msg (.valueSingle r1.serial vs)) st2)
        else
          Except.ok (send1 false (.msg (.valueMap r1.serial serials)) st2)
      let st4 ←
        if r1.hasPreviousValue then do
          let refs ← capturedRefs r1.previousValue
          decOldRefs fuel refs st3
        else Except.ok st3
      set_previous s (.dictRefs objs) true st4
    else Except.ok st1
termination_by structural fuel s objs is_single st => fuel

/-- The dict comprehension of maybesend_reference: register every child at
url/(name) and collect name-to-serial pairs in iteration order. -/
def regChildren (w : World) : Nat → String → List (String × Nat) → SS → Except Err (SS × List (String × Nat))
  | 0, _, _, _ => Except.error Err.fuelOut
  | _ + 1, _, [], st => Except.ok (st, [])
  | fuel + 1, url, (k, o) :: rest, st => do
    let p ← lookup_or_register w fuel o (url ++ "/" ++ k) st
    let q ← regChildren w fuel url rest p.1
    Except.ok (q.1, (k, p.2) :: q.2)
termination_by structural fuel url objs st => fuel

end

/-- Inbound data for StateStreamInner.dataReceived: bytes that do not parse
as JSON, a set command, or a command with an unrecognized op. -/
inductive InMsg where
  | malformed
  | setOp (serial : Nat) (value : Val) (messageId : Val)
  | unknownOp (name : String)
deriving DecidableEq, Repr

/-- StateStreamInner.dataReceived. Unparseable data raises out of
json.loads; an unknown op is logged and ignored; a set command looks the
serial up (KeyError on an unknown serial), requires a cell (exception
otherwise), sets it, resends its value if needed, acknowledges with done,
logs and notes dirty. Returns the possibly-updated world alongside the
session state. -/
def dataReceived (w : World) (fuel : Nat) (m : InMsg) (st : SS) :
    Except Err (World × SS) :=
  match m with
  | .malformed => Except.error Err.valueError
  | .unknownOp _ => Except.ok (w, { st with logMsgs := st.logMsgs + 1 })
  | .setOp serial v mid => do
    let r ← if serial ∈ st.serialTable then getK (alGet st.heap serial)
            else Except.error Err.keyError
    if r.objIsCell then do
      let w1 : World := { w with cellValue := fun o => if o = r.obj then v else w.cellValue o }
      let st1 ← send_now_if_needed w1 fuel serial st
      let st2 := send1 false (.msg (.done mid)) st1
      Except.ok (w1, { st2 with logMsgs := st2.logMsgs + 1, dirty := st2.dirty + 1 })
    else Except.error (Err.appError "This object is not a cell")

/-- The session-state part of a dataReceived result. -/
def drState (r : Except Err (World × SS)) : Except Err SS :=
  r.map (fun p => p.2)

/-- The drop loop of StateStreamInner.connectionLost over a snapshot of the
registered object keys. -/
def dropList : List Nat → SS → Except Err SS
  | [], st => Except.ok st
  | o :: os, st => do
    let st1 ← drop_obj o st
    dropList os st1

/-- StateStreamInner.connectionLost: drop every registration of the session,
with no refcount activity and no wire output. -/
def connectionLost (st : SS) : Except Err SS :=
  dropList (st.objTable.map (fun kv => kv.1)) st

/-- StateStreamInner.__init__: registration of the synthetic root cell at
serial 0 with refcount 0, both tables holding only it, empty batch, no
timer, followed by the initial send_now_if_needed on the root. -/
def initSS (w : World) (fuel : Nat) (rootCell : Nat) (rootUrl : String) :
    Except Err SS :=
  let reg0 : Reg :=
    { obj := rootCell, serial := 0, url := rootUrl, hasPreviousValue := false,
      previousValue := none, valueIsReferences := false, dead := false,
      refcount := 0, objIsCell := (w.kind rootCell).isCell, pollerSubscribed := true }
  let st : SS :=
    { heap := [(0, reg0)], objTable := [(rootCell, 0)], serialTable := [0],
      lastSerial := 0, sendBatch := [], batchDelay := none, outstanding := [],
      nextTimer := 0, frames := [], logMsgs := 0, dirty := 0 }
  send_now_if_needed w fuel 0 st

/-- The wire-visible output of a session state: the pending batch and the
transcript of frames already handed to the transport. -/
def wireView (st : SS) : List WireValue × List Frame :=
  (st.sendBatch, st.frames)

/-- The registration record left behind by a finalization with the given
starting record: refcount at zero, dead, poller unsubscribed, previous
value cleared. -/
def finalizedReg (r : Reg) : Reg :=
  { r with refcount := 0, dead := true, pollerSubscribed := false,
           previousValue := none, hasPreviousValue := false,
           valueIsReferences := false }

/-- An empty session state used as a fallback when unwrapping init results. -/
def emptySS : SS :=
  { heap := [], objTable := [], serialTable := [], lastSerial := 0,
    sendBatch := [], batchDelay := none, outstanding := [], nextTimer := 0,
    frames := [], logMsgs := 0, dirty := 0 }

/-- A small world for concrete scenarios: object 100 is a block-valued cell
whose block is object 101, an ExportedState with no children; other ids are
scalar cells with value 0. -/
def wRootOnly : World :=
  { kind := fun o => if o = 100 then .blockCell else
      if o = 101 then .exported else .scalarCell,
    cellValue := fun _ => .num 0,
    cellBlock := fun o => if o = 100 then 101 else 0,
    blockState := fun _ => [],
    cellDesc := fun _ => .null,
    interfaces := fun _ => ["shinysdr.values.ExportedState"] }

/-- The session produced by initializing against wRootOnly; it has one
pending batch (three register messages) and one scheduled flush timer. -/
def stFresh : SS :=
  match initSS wRootOnly 10 100 "/radio" with
  | .ok st => st
  | .error _ => emptySS

/-- Concrete registration of a non-cell object (an ExportedState) at
serial 1, used by the inbound-command scenarios. -/
def regNonCell : Reg :=
  { obj := 50, serial := 1, url := "/radio/b", hasPreviousValue := true,
    previousValue := some (.dictRefs []), valueIsReferences := true,
    dead := false, refcount := 1, objIsCell := false, pollerSubscribed := true }

/-- Concrete session holding only regNonCell, used by the inbound-command
scenarios. -/
def stNonCell : SS :=
  { heap := [(1, regNonCell)], objTable := [(50, 1)], serialTable := [1],
    lastSerial := 1, sendBatch := [], batchDelay := none, outstanding := [],
    nextTimer := 0, frames := [], logMsgs := 0, dirty := 0 }

/-- World in which object 50 is an ExportedState and everything else a
scalar cell, used by the inbound-command scenarios. -/
def wNonCell : World :=
  { kind := fun o => if o = 50 then .exported else .scalarCell,
    cellValue := fun _ => .num 0,
    cellBlock := fun _ => 0,
    blockState := fun _ => [],
    cellDesc := fun _ => .null,
    interfaces := fun _ => [] }

/-- Concrete live scalar-cell registration at serial 2 whose previously
sent value is 5. -/
def regScalar5 : Reg :=
  { obj := 7, serial := 2, url := "/radio/v", hasPreviousValue := true,
    previousValue := some (.dictScalar (.num 5)), valueIsReferences := false,
    dead := false, refcount := 1, objIsCell := true, pollerSubscribed := true }

/-- Concrete session holding only regScalar5. -/
def stScalar5 : SS :=
  { heap := [(2, regScalar5)], objTable := [(7, 2)], serialTable := [2],
    lastSerial := 2, sendBatch := [], batchDelay := none, outstanding := [],
    nextTimer := 0, frames := [], logMsgs := 0, dirty := 0 }

/-- World in which scalar cell 7 currently holds the value n. -/
def wCell7 (n : Int) : World :=
  { kind := fun _ => .scalarCell,
    cellValue := fun o => if o = 7 then .num n else .num 0,
    cellBlock := fun _ => 0,
    blockState := fun _ => [],
    cellDesc := fun _ => .null,
    interfaces := fun _ => [] }

/-- The session state in which registration s (currently the record r) has
just stored the scalar value v as its previous value. -/
def withScalarPrev (st : SS) (s : Nat) (r : Reg) (v : Val) : SS :=
  let r1 : Reg := { r with hasPreviousValue := true,
                           previousValue := some (.dictScalar v),
                           valueIsReferences := false }
  { st with heap := alSet st.heap s r1 }

/-- The registration record constructed by _lookup_or_register, before any
previous value is stored: refcount 0, alive, poller subscribed. -/
def freshReg (w : World) (o serial : Nat) (url : String) : Reg :=
  { obj := o, serial := serial, url := url, hasPreviousValue := false,
    previousValue := none, valueIsReferences := false, dead := false,
    refcount := 0, objIsCell := (w.kind o).isCell, pollerSubscribed := true }

/-- A registration record after set_previous stored the scalar value v. -/
def regWithScalarPrev (r : Reg) (v : Val) : Reg :=
  { r with hasPreviousValue := true, previousValue := some (.dictScalar v),
           valueIsReferences := false }

/-- A registration record after set_previous stored the reference dict m. -/
def regWithRefsPrev (r : Reg) (m : List (String × Nat)) : Reg :=
  { r with hasPreviousValue := true, previousValue := some (.dictRefs m),
           valueIsReferences := true }

/-- The session state right after _lookup_or_register allocated the next
serial and inserted a fresh registration for o in both tables (before the
register message is emitted). -/
def insertFreshReg (w : World) (st : SS) (o : Nat) (u : String) : SS :=
  { st with lastSerial := st.lastSerial + 1,
            heap := alSet st.heap (st.lastSerial + 1) (freshReg w o (st.lastSerial + 1) u),
            objTable := alSet st.objTable o (st.lastSerial + 1),
            serialTable := st.serialTable ++ [st.lastSerial + 1] }

/-- End state of _lookup_or_register on an unregistered scalar cell: fresh
registration inserted, one register_cell message batched, the current cell
value stored as previous value, and the initial-value resend suppressed. -/
def lorScalarEnd (w : World) (st : SS) (o : Nat) (u : String) : SS :=
  let serial := st.lastSerial + 1
  let a := send1 false (.msg (.register_cell serial u (w.cellDesc o))) (insertFreshReg w st o u)
  { a with heap := alSet a.heap serial (regWithScalarPrev (freshReg w o serial u) (w.cellValue o)) }

/-- End state of _lookup_or_register on an unregistered stream cell: fresh
registration inserted and one register_cell message batched (the stream
hook does nothing). -/
def lorStreamEnd (w : World) (st : SS) (o : Nat) (u : String) : SS :=
  send1 false (.msg (.register_cell (st.lastSerial + 1) u (w.cellDesc o))) (insertFreshReg w st o u)

/-- End state of _lookup_or_register on an unregistered ExportedState with
no children: fresh registration inserted, register_block batched, and the
initial listen_state pass batching value(serial, empty dict) and storing the
empty reference dict as previous value. -/
def lorExportedEnd (w : World) (st : SS) (o : Nat) (u : String) : SS :=
  let serial := st.lastSerial + 1
  let a := send1 false (.msg (.register_block serial u (w.interfaces o))) (insertFreshReg w st o u)
  let b := send1 false (.msg (.valueMap serial [])) a
  { b with heap := alSet b.heap serial (regWithRefsPrev (freshReg w o serial u) []) }

/-- End state of _lookup_or_register on an unregistered plain object with
an empty state mapping: like the ExportedState case but with the fallback
register message. -/
def lorPlainEnd (w : World) (st : SS) (o : Nat) (u : String) : SS :=
  let serial := st.lastSerial + 1
  let a := send1 false (.msg (.register serial u)) (insertFreshReg w st o u)
  let b := send1 false (.msg (.valueMap serial [])) a
  { b with heap := alSet b.heap serial (regWithRefsPrev (freshReg w o serial u) []) }

/-- World with one object of each kind: 1 a scalar cell holding 7, 2 a
stream cell, 3 an ExportedState with no children, 4 a plain object. -/
def wKinds : World :=
  { kind := fun o =>
      if o = 1 then .scalarCell else if o = 2 then .streamCell else
      if o = 3 then .exported else .plain,
    cellValue := fun _ => .num 7,
    cellBlock := fun _ => 0,
    blockState := fun _ => [],
    cellDesc := fun _ => .str "desc",
    interfaces := fun _ => ["shinysdr.values.ExportedState"] }

/-- Session in which object 1 is already registered at serial 9. -/
def stObj1At9 : SS :=
  { heap := [(9, freshReg wKinds 1 9 "/radio/v")], objTable := [(1, 9)],
    serialTable := [9], lastSerial := 9, sendBatch := [], batchDelay := none,
    outstanding := [], nextTimer := 0, frames := [], logMsgs := 0, dirty := 0 }

/-- A registration record whose poller registration has been unsubscribed
by drop; every other field, the refcount and deadness included, is kept. -/
def regUnsub (r : Reg) : Reg :=
  { r with pollerSubscribed := false }

/-- Live registration of object 10 at serial 3 with refcount 2. -/
def regT3 : Reg :=
  { obj := 10, serial := 3, url := "/radio/a", hasPreviousValue := false,
    previousValue := none, valueIsReferences := false, dead := false,
    refcount := 2, objIsCell := true, pollerSubscribed := true }

/-- Live registration of object 20 at serial 5 with refcount 1. -/
def regT5 : Reg :=
  { obj := 20, serial := 5, url := "/radio/b", hasPreviousValue := true,
    previousValue := some (.dictScalar (.num 1)), valueIsReferences := false,
    dead := false, refcount := 1, objIsCell := true, pollerSubscribed := true }

/-- Session with the two live registrations regT3 and regT5, a pending
batch and an already-sent frame, used by the teardown scenario. -/
def stTwoRegs : SS :=
  { heap := [(3, regT3), (5, regT5)],
    objTable := [(10, 3), (20, 5)], serialTable := [3, 5], lastSerial := 5,
    sendBatch := [.msg (.done .null)], batchDelay := none, outstanding := [],
    nextTimer := 0, frames := [.batchFrame [.msg (.register 1 "/radio")]],
    logMsgs := 0, dirty := 0 }

/-- Registration table for stTwoRegs, keyed by serial. -/
def rgTwoRegs : Nat → Reg :=
  fun s => if s = 3 then regT3 else regT5

/-- Registration of object 100 at serial 5 whose previous value references
objects 20 and 10 (stored in that order) and whose refcount is 1. -/
def regC1top : Reg :=
  { obj := 100, serial := 5, url := "/radio",
    hasPreviousValue := true,
    previousValue := some (.dictRefs [("b", 20), ("a", 10)]),
    valueIsReferences := true, dead := false, refcount := 1,
    objIsCell := false, pollerSubscribed := true }

/-- Referenced registration of object 10 at serial 7, refcount 1, holding a
scalar previous value. -/
def regC1a : Reg :=
  { obj := 10, serial := 7, url := "/radio/a", hasPreviousValue := true,
    previousValue := some (.dictScalar (.num 4)), valueIsReferences := false,
    dead := false, refcount := 1, objIsCell := true, pollerSubscribed := true }

/-- Referenced registration of object 20 at serial 6, refcount 1, with no
previous value. -/
def regC1b : Reg :=
  { obj := 20, serial := 6, url := "/radio/b", hasPreviousValue := false,
    previousValue := none, valueIsReferences := false, dead := false,
    refcount := 1, objIsCell := true, pollerSubscribed := true }

/-- Session holding regC1top and its two referenced registrations. -/
def stC1 : SS :=
  { heap := [(5, regC1top), (7, regC1a), (6, regC1b)],
    objTable := [(100, 5), (10, 7), (20, 6)], serialTable := [5, 7, 6],
    lastSerial := 7, sendBatch := [], batchDelay := none, outstanding := [],
    nextTimer := 0, frames := [], logMsgs := 0, dirty := 0 }

/-- Serial map for the referenced objects of stC1. -/
def smC1 : Nat → Nat := fun o => if o = 10 then 7 else 6

/-- Registration map for the referenced objects of stC1. -/
def rgC1 : Nat → Reg := fun o => if o = 10 then regC1a else regC1b

/-- The session state st with the previous value of registration s (whose
record is r) replaced by the reference dict m; the states for the possible
iteration orders of one stored dict differ exactly by a permutation of m. -/
def withRefsPrevValue (st : SS) (s : Nat) (r : Reg) (m : List (String × Nat)) : SS :=
  { st with heap := alSet st.heap s ({ r with previousValue := some (.dictRefs m) }) }

/-- Reference-holding registration of object 100 at serial 5, refcount 1,
whose stored dict is replaced per scenario. -/
def regC9top : Reg :=
  { obj := 100, serial := 5, url := "/radio", hasPreviousValue := true,
    previousValue := some (.dictRefs []), valueIsReferences := true,
    dead := false, refcount := 1, objIsCell := false, pollerSubscribed := true }

/-- Live registration of object 30 at serial 8, a freshly referenced child
in the update scenario. -/
def regC9new : Reg :=
  { obj := 30, serial := 8, url := "/radio/x", hasPreviousValue := false,
    previousValue := none, valueIsReferences := false, dead := false,
    refcount := 1, objIsCell := true, pollerSubscribed := true }

/-- Session for the determinism scenario: the reference-holding
registration 5, the two old referenced registrations 7 and 6 (objects 10
and 20) and the new referenced registration 8 (object 30). -/
def stC9 : SS :=
  { heap := [(5, regC9top), (7, regC1a), (6, regC1b), (8, regC9new)],
    objTable := [(100, 5), (10, 7), (20, 6), (30, 8)],
    serialTable := [5, 7, 6, 8], lastSerial := 8, sendBatch := [],
    batchDelay := none, outstanding := [], nextTimer := 0, frames := [],
    logMsgs := 0, dirty := 0 }

/-- Serial map for the new referenced objects of stC9. -/
def snC9 : Nat → Nat := fun _ => 8

/-- Registration map (keyed by serial) for the new referenced objects of
stC9. -/
def rrC9 : Nat → Reg := fun _ => regC9new

end StateStream

/-
The persistence subsystem. Its implementation (shinysdr/i/persistence.py,
shinysdr/values.py subscription machinery, shinysdr/test/testutil.py) is not
part of this repository snapshot; only its test suite
(src/shinysdr/test/i/test_persistence.py) is. The definitions below are
therefore modelled from the specification, as marked, specialized to the
ValueAndBlockSpecimen object tree that the tests and the claims use.
-/

namespace Persist

/-- Modelled from the spec: the ValueAndBlockSpecimen object tree of the
persistence tests (missing shinysdr.test.test_persistence specimen class):
an ExportedState with a float cell (key value) and a reference cell (key
block) holding either a nested specimen or a childless ExportedState. -/
inductive Specimen where
  | emptyState
  | vab (value : Int) (block : Specimen)
deriving DecidableEq, Repr

/-- Modelled from the spec: a Snapshot, the plain nested mapping mirroring a
Specimen (keys value and block, recursively). -/
inductive Snap where
  | emptySnap
  | vs (value : Int) (block : Snap)
deriving DecidableEq, Repr

/-- Modelled from the spec: recursive snapshotting of the object tree into
the plain nested mapping. -/
def snapshotOf : Specimen → Snap
  | .emptyState => .emptySnap
  | .vab v b => .vs v (snapshotOf b)

/-- set_value on the root specimen. -/
def setRootValue (v : Int) : Specimen → Specimen
  | .emptyState => .emptyState
  | .vab _ b => .vab v b

/-- get_block().set_value on the nested specimen. -/
def setBlockValue (v : Int) : Specimen → Specimen
  | .emptyState => .emptyState
  | .vab x b => .vab x (setRootValue v b)

/-- get_value on the root specimen. -/
def rootValue : Specimen → Int
  | .emptyState => 0
  | .vab v _ => v

/-- Modelled from the spec: the state of a PersistenceChangeDetector
(missing shinysdr.i.persistence.PersistenceChangeDetector): one cached
Snapshot and the number of callback invocations so far. -/
structure Detector where
  cache : Snap
  calls : Nat
deriving DecidableEq, Repr

/-- Modelled from the spec: detector construction over a root, caching the
initial Snapshot with no callbacks yet. -/
def detectorInit (root : Specimen) : Detector :=
  { cache := snapshotOf root, calls := 0 }

/-- Modelled from the spec: one notification cycle of the change detector;
it recomputes the full Snapshot by recursive traversal and, if it differs by
structural equality from the cached one, replaces the cache and invokes the
callback exactly once for the whole batch. -/
def detectorTick (root : Specimen) (d : Detector) : Detector :=
  let s := snapshotOf root
  if s = d.cache then d else { cache := s, calls := d.calls + 1 }

/-- Modelled from the spec: get() returns the current cached Snapshot. -/
def detectorGet (d : Detector) : Snap :=
  d.cache

/-- Modelled from the spec: applying a persisted mapping onto the writable
cells of an object tree, recursively, silently skipping keys that do not
correspond to a settable cell. -/
def applySnap : Snap → Specimen → Specimen
  | .emptySnap, sp => sp
  | .vs _ _, .emptyState => .emptyState
  | .vs v bs, .vab _ b => .vab v (applySnap bs b)

/-- Modelled from the spec: the state of a PersistenceFileGlue session
(missing shinysdr.i.persistence.PersistenceFileGlue): the live root object,
the current content of the state file, and whether a delayed write is
scheduled. -/
structure Pfg where
  root : Specimen
  file : Option Snap
  writePending : Bool
deriving DecidableEq, Repr

/-- Modelled from the spec: PersistenceFileGlue startup; read the persisted
mapping (missing file means empty), merge the defaults beneath it (persisted
values win), apply the merged mapping onto the root object. -/
def pfgStart (defaults : Option Snap) (file : Option Snap) (root : Specimen) : Pfg :=
  let effective : Option Snap :=
    match file with
    | some s => some s
    | none => defaults
  let root1 :=
    match effective with
    | some s => applySnap s root
    | none => root
  { root := root1, file := file, writePending := false }

/-- Modelled from the spec: a value mutation on the live root; the change
detector callback schedules a delayed write if none is scheduled yet. -/
def pfgSetRootValue (v : Int) (p : Pfg) : Pfg :=
  { p with root := setRootValue v p.root, writePending := true }

/-- Modelled from the spec: the delayed write completing (what sync() waits
for): the whole current Snapshot is written to the file. -/
def pfgSyncAdvance (p : Pfg) : Pfg :=
  if p.writePending then
    { p with file := some (snapshotOf p.root), writePending := false }
  else p

/-- The detector-scenario root: value 0, one nested block with value 0 and a
childless block. -/
def specimen0 : Specimen := .vab 0 (.vab 0 .emptyState)

/-- Root after mutating the root value to 1. -/
def specimen1 : Specimen := setRootValue 1 specimen0

/-- Root after further mutating the root value to 2. -/
def specimen2 : Specimen := setRootValue 2 specimen1

/-- Root after further mutating the nested block value to 3. -/
def specimen3 : Specimen := setBlockValue 3 specimen2

/-- Detector state after the first notification cycle (root value now 1). -/
def detTrace1 : Detector := detectorTick specimen1 (detectorInit specimen0)

/-- Detector state after the second cycle (root value now 2). -/
def detTrace2 : Detector := detectorTick specimen2 detTrace1

/-- Detector state after a cycle with no change. -/
def detTrace3 : Detector := detectorTick specimen2 detTrace2

/-- Detector state after the cycle viewing the nested mutation to 3. -/
def detTrace4 : Detector := detectorTick specimen3 detTrace3

/-- The file-glue scenario root: value 0 over a childless block. -/
def pfgRoot : Specimen := .vab 0 .emptyState

/-- File glue started against a missing state file. -/
def pfgA : Pfg := pfgStart none none pfgRoot

/-- The same session after setting the value to 1 (write still delayed). -/
def pfgB : Pfg := pfgSetRootValue 1 pfgA

/-- The same session after the delayed write completed (sync resolved). -/
def pfgSynced : Pfg := pfgSyncAdvance pfgB

/-- A fresh session over the same file after syncing. -/
def pfgFreshSynced : Pfg := pfgStart none pfgSynced.file pfgRoot

/-- A fresh session over the same file without waiting for the write. -/
def pfgFreshUnsynced : Pfg := pfgStart none pfgB.file pfgRoot

end Persist

namespace StateStream

theorem alGet_alSet_self {β : Type} (l : List (Nat × β)) (k : Nat) (v : β) :
    alGet (alSet l k v) k = some v := by
  induction l with
  | nil => simp [alSet, alGet]
  | cons hd tl ih =>
    by_cases h : hd.1 = k
    · cases hd; simp_all [alSet, alGet]
    · cases hd; simp_all [alSet, alGet]

theorem alGet_alSet_ne {β : Type} (l : List (Nat × β)) (k k' : Nat) (v : β)
    (h : k ≠ k') : alGet (alSet l k v) k' = alGet l k' := by
  induction l with
  | nil => simp [alSet, alGet, h]
  | cons hd tl ih =>
    by_cases h0 : hd.1 = k
    · cases hd; simp_all [alSet, alGet]
    · cases hd; simp_all [alSet, alGet]

theorem alSet_alSet_self {β : Type} (l : List (Nat × β)) (k : Nat) (a b : β) :
    alSet (alSet l k a) k b = alSet l k b := by
  induction l with
  | nil => simp [alSet]
  | cons hd tl ih =>
    by_cases h0 : hd.1 = k
    · cases hd; simp_all [alSet]
    · cases hd; simp_all [alSet]

theorem alGet_alDel_ne {β : Type} (l : List (Nat × β)) (k k' : Nat)
    (h : k ≠ k') : alGet (alDel l k) k' = alGet l k' := by
  induction l with
  | nil => simp [alDel]
  | cons hd tl ih =>
    by_cases h0 : hd.1 = k
    · cases hd with
      | mk k0 v0 =>
        simp only at h0
        subst h0
        simp [alDel, alGet, h]
    · cases hd; simp_all [alDel, alGet]

theorem alGet_eq_none_of_not_mem_keys {β : Type} (l : List (Nat × β)) (k : Nat)
    (h : k ∉ l.map Prod.fst) : alGet l k = none := by
  induction l with
  | nil => rfl
  | cons hd tl ih =>
    cases hd with
    | mk k0 v0 =>
      simp only [List.map_cons, List.mem_cons] at h
      push_neg at h
      simp [alGet, Ne.symm h.1, ih h.2]

theorem alGet_alDel_self {β : Type} (l : List (Nat × β)) (k : Nat)
    (h : (l.map Prod.fst).Nodup) : alGet (alDel l k) k = none := by
  induction l with
  | nil => rfl
  | cons hd tl ih =>
    cases hd with
    | mk k0 v0 =>
      simp only [List.map_cons, List.nodup_cons] at h
      by_cases h0 : k0 = k
      · subst h0
        simp [alDel, alGet_eq_none_of_not_mem_keys tl k0 h.1]
      · simp [alDel, alGet, h0, ih h.2]

theorem alDel_keys_sublist {β : Type} (l : List (Nat × β)) (k : Nat) :
    ((alDel l k).map Prod.fst).Sublist (l.map Prod.fst) := by
  induction l with
  | nil => simp [alDel]
  | cons hd tl ih =>
    cases hd with
    | mk k0 v0 =>
      by_cases h0 : k0 = k
      · simp [alDel, h0]
      · simpa [alDel, h0] using List.Sublist.cons₂ k0 ih

theorem alDel_keys_nodup {β : Type} (l : List (Nat × β)) (k : Nat)
    (h : (l.map Prod.fst).Nodup) : ((alDel l k).map Prod.fst).Nodup :=
  (alDel_keys_sublist l k).nodup h

theorem send1_false_eq (v : WireValue) (st : SS) :
    send1 false v st =
      (if recordedTimerActive { st with sendBatch := st.sendBatch ++ [v] }
       then { st with sendBatch := st.sendBatch ++ [v] }
       else scheduleFlush { st with sendBatch := st.sendBatch ++ [v] }) := rfl

theorem recordedTimerActive_batch (v : List WireValue) (st : SS) :
    recordedTimerActive { st with sendBatch := v } = recordedTimerActive st := rfl

theorem send1_false_heap (v : WireValue) (st : SS) :
    (send1 false v st).heap = st.heap := by
  rw [send1_false_eq]; split <;> rfl

theorem send1_false_objTable (v : WireValue) (st : SS) :
    (send1 false v st).objTable = st.objTable := by
  rw [send1_false_eq]; split <;> rfl

theorem send1_false_serialTable (v : WireValue) (st : SS) :
    (send1 false v st).serialTable = st.serialTable := by
  rw [send1_false_eq]; split <;> rfl

theorem send1_false_lastSerial (v : WireValue) (st : SS) :
    (send1 false v st).lastSerial = st.lastSerial := by
  rw [send1_false_eq]; split <;> rfl

theorem send1_false_frames (v : WireValue) (st : SS) :
    (send1 false v st).frames = st.frames := by
  rw [send1_false_eq]; split <;> rfl

theorem send1_false_sendBatch (v : WireValue) (st : SS) :
    (send1 false v st).sendBatch = st.sendBatch ++ [v] := by
  rw [send1_false_eq]; split <;> rfl

/-- C5: for every session state, a binary _send1 first flushes every pending
batched non-binary message as one serialized frame (leaving the batch
empty) and then hands the binary value to the transport immediately, so the
remote peer observes all previously batched messages before the binary one;
a non-binary _send1 hands nothing to the transport and only appends the
message to the batch. -/
theorem c5_send1_binary_flushes_then_sends (st : SS) (v : WireValue) :
    (send1 true v st).frames
      = st.frames
        ++ (if st.sendBatch.isEmpty then [] else [Frame.batchFrame st.sendBatch])
        ++ [Frame.rawFrame v]
    ∧ (send1 true v st).sendBatch = []
    ∧ (send1 false v st).frames = st.frames
    ∧ (send1 false v st).sendBatch = st.sendBatch ++ [v] := by
  refine ⟨?_, ?_, send1_false_frames v st, send1_false_sendBatch v st⟩ <;>
    cases hb : st.sendBatch <;> simp [send1, flush, hb]

/-- C6 counterexample: the claim that at most one batch-flush timer is ever
outstanding, and that a non-binary send while a flush timer is pending
schedules nothing, fails on the code. From a freshly initialized session
(one batched register sequence, flush timer id 0 outstanding), a binary
send runs _flush directly, which clears the recorded DelayedCall handle
without cancelling the still-pending timer; the next non-binary send then
finds no recorded handle and schedules a second flush timer, leaving the
two timers 0 and 1 outstanding at once. -/
theorem c6_counterexample_two_timers :
    stFresh.outstanding = [0]
    ∧ (send1 true (.bin 0 []) stFresh).outstanding = [0]
    ∧ (send1 true (.bin 0 []) stFresh).batchDelay = none
    ∧ (send1 false (.msg (.done .null)) (send1 true (.bin 0 []) stFresh)).outstanding
        = [0, 1] := by
  refine ⟨by decide, by decide, by decide, by decide⟩

/-- C6 amended: scheduling is keyed to the recorded DelayedCall handle, not
to the set of outstanding timers: a non-binary send schedules a zero-delay
flush exactly when the recorded batch-delay handle is absent or no longer
active, and while the recorded handle is active the scheduling step is a
no-op. (Because _flush clears the handle without cancelling the timer, a
binary send that flushes while a timer is pending lets a later non-binary
send schedule a second timer, so at most one timer being outstanding holds
only between the timer discipline of non-binary sends, not across direct
flushes.) -/
theorem c6_scheduling_keyed_to_recorded_handle (st : SS) (v : WireValue) :
    (recordedTimerActive st = true →
      (send1 false v st).outstanding = st.outstanding
      ∧ (send1 false v st).nextTimer = st.nextTimer
      ∧ (send1 false v st).batchDelay = st.batchDelay)
    ∧ (recordedTimerActive st = false →
      (send1 false v st).outstanding = st.outstanding ++ [st.nextTimer]
      ∧ (send1 false v st).nextTimer = st.nextTimer + 1
      ∧ (send1 false v st).batchDelay = some st.nextTimer) := by
  constructor <;> intro h <;>
    rw [send1_false_eq] <;>
    simp [recordedTimerActive_batch, h, scheduleFlush]

/-- C6 amended witness: on the fresh session the recorded handle is active
and a non-binary send schedules nothing; on the empty session it is absent
and a timer is scheduled. -/
theorem c6_scheduling_witness :
    (send1 false (.msg (.done .null)) stFresh).outstanding = [0]
    ∧ (send1 false (.msg (.done .null)) emptySS).outstanding = [0] := by
  have h1 := (c6_scheduling_keyed_to_recorded_handle stFresh (.msg (.done .null))).1 (by decide)
  have h2 := (c6_scheduling_keyed_to_recorded_handle emptySS (.msg (.done .null))).2 (by decide)
  exact ⟨h1.1.trans (by decide), h2.1.trans (by decide)⟩

theorem except_bind_ok {α β : Type} (a : α) (f : α → Except Err β) :
    (Except.ok a : Except Err α) >>= f = f a := rfl

theorem except_bind_error {α β : Type} (e : Err) (f : α → Except Err β) :
    (Except.error e : Except Err α) >>= f = Except.error e := rfl

theorem getK_some {α : Type} (a : α) : getK (some a) = Except.ok a := rfl

theorem getK_none {α : Type} :
    (getK none : Except Err α) = Except.error Err.keyError := rfl

/-- C3: for a live scalar-cell registration that has a previously sent
value, a value-change notification (listen_cell, which forwards to
maybesend) emits a value message exactly when the current cell value
differs by equality from the stored one: resending an unchanged value is
suppressed with no state change at all, and an emitted message stores the
new value as the previous value alongside exactly one batched
value(serial, value) message. -/
theorem c3_scalar_resend_iff_value_differs (w : World) (n : Nat) (st : SS)
    (s : Nat) (r : Reg) (pv : Val)
    (hr : alGet st.heap s = some r) (hdead : r.dead = false)
    (hkind : w.kind r.obj = .scalarCell) (hprev : r.hasPreviousValue = true)
    (hstored : r.previousValue = some (.dictScalar pv)) :
    (w.cellValue r.obj = pv → listen_cell w (n + 1) s st = .ok st)
    ∧ (w.cellValue r.obj ≠ pv →
        listen_cell w (n + 1) s st
          = .ok (send1 false (.msg (.valueScalar s (w.cellValue r.obj)))
              (withScalarPrev st s r (w.cellValue r.obj)))) := by
  constructor <;> intro hv
  · simp [listen_cell, hr, hdead, hkind, maybesend, hprev, hstored, hv, getK_some,
      except_bind_ok]
  · simp [listen_cell, hr, hdead, hkind, maybesend, hprev, hstored, hv, getK_some,
      except_bind_ok, set_previous, withScalarPrev]

/-- C3 witness: with the stored value 5, a notification while the cell
still reads 5 emits nothing and changes nothing; a notification when the
cell reads 6 emits value(2, 6) into the batch and stores 6. -/
theorem c3_scalar_resend_witness :
    listen_cell (wCell7 5) 1 2 stScalar5 = .ok stScalar5
    ∧ listen_cell (wCell7 6) 1 2 stScalar5
        = .ok (send1 false (.msg (.valueScalar 2 (.num 6)))
            (withScalarPrev stScalar5 2 regScalar5 (.num 6))) := by
  constructor
  · exact (c3_scalar_resend_iff_value_differs (wCell7 5) 0 stScalar5 2 regScalar5
      (.num 5) rfl rfl rfl rfl rfl).1 rfl
  · exact (c3_scalar_resend_iff_value_differs (wCell7 6) 0 stScalar5 2 regScalar5
      (.num 5) rfl rfl rfl rfl rfl).2 (by decide)

/-- C4 (evidence for the code bug): inbound handling only survives the
unknown-op case. Malformed data raises out of json.loads; a set for an
unknown serial raises KeyError; a set addressed to a registered non-cell
raises; only a parseable command with an unrecognized op is logged and
ignored with no acknowledgment and no other state change. -/
theorem c4_dataReceived_raises_on_bad_input :
    dataReceived wNonCell 5 .malformed stNonCell = .error .valueError
    ∧ drState (dataReceived wNonCell 5 (.unknownOp "frobnicate") stNonCell)
        = .ok ({ stNonCell with logMsgs := stNonCell.logMsgs + 1 })
    ∧ dataReceived wNonCell 5 (.setOp 999 (.num 1) (.str "m1")) stNonCell
        = .error .keyError
    ∧ dataReceived wNonCell 5 (.setOp 1 (.num 1) (.str "m1")) stNonCell
        = .error (.appError "This object is not a cell") :=
  ⟨rfl, rfl, rfl, rfl⟩

theorem lor_run_registered (w : World) (n : Nat) (st : SS) (o s : Nat) (u : String)
    (hs : alGet st.objTable o = some s) :
    lookup_or_register w (n + 5) o u st = .ok (st, s) := by
  show lookup_or_register w (n + 1 + 1 + 1 + 1 + 1) o u st = _
  rw [lookup_or_register, hs]

theorem lor_run_scalar (w : World) (n : Nat) (st : SS) (o : Nat) (u : String)
    (hget : alGet st.objTable o = none) (hk : w.kind o = .scalarCell) :
    lookup_or_register w (n + 5) o u st
      = .ok (lorScalarEnd w st o u, st.lastSerial + 1) := by
  show lookup_or_register w (n + 1 + 1 + 1 + 1 + 1) o u st = _
  rw [lookup_or_register, hget]
  simp [hk, send_now_if_needed, listen_cell, maybesend, set_previous,
    send1_false_heap, alGet_alSet_self, getK_some, except_bind_ok,
    lorScalarEnd, insertFreshReg, freshReg, regWithScalarPrev]

theorem lor_run_stream (w : World) (n : Nat) (st : SS) (o : Nat) (u : String)
    (hget : alGet st.objTable o = none) (hk : w.kind o = .streamCell) :
    lookup_or_register w (n + 5) o u st
      = .ok (lorStreamEnd w st o u, st.lastSerial + 1) := by
  show lookup_or_register w (n + 1 + 1 + 1 + 1 + 1) o u st = _
  rw [lookup_or_register, hget]
  simp [hk, send_now_if_needed, send1_false_heap, alGet_alSet_self, getK_some,
    except_bind_ok, lorStreamEnd, insertFreshReg, freshReg]

theorem lor_run_exported (w : World) (n : Nat) (st : SS) (o : Nat) (u : String)
    (hget : alGet st.objTable o = none) (hk : w.kind o = .exported)
    (hbs : w.blockState o = []) :
    lookup_or_register w (n + 5) o u st
      = .ok (lorExportedEnd w st o u, st.lastSerial + 1) := by
  show lookup_or_register w (n + 1 + 1 + 1 + 1 + 1) o u st = _
  rw [lookup_or_register, hget]
  simp [hk, hbs, send_now_if_needed, listen_state, maybesend_reference,
    regChildren, incList, prevDiffers, set_previous, send1_false_heap,
    alGet_alSet_self, getK_some, except_bind_ok, lorExportedEnd,
    insertFreshReg, freshReg, regWithRefsPrev]

theorem lor_run_plain (w : World) (n : Nat) (st : SS) (o : Nat) (u : String)
    (hget : alGet st.objTable o = none) (hk : w.kind o = .plain)
    (hbs : w.blockState o = []) :
    lookup_or_register w (n + 5) o u st
      = .ok (lorPlainEnd w st o u, st.lastSerial + 1) := by
  show lookup_or_register w (n + 1 + 1 + 1 + 1 + 1) o u st = _
  rw [lookup_or_register, hget]
  simp [hk, hbs, send_now_if_needed, listen_state, maybesend_reference,
    regChildren, incList, prevDiffers, set_previous, send1_false_heap,
    alGet_alSet_self, getK_some, except_bind_ok, lorPlainEnd,
    insertFreshReg, freshReg, regWithRefsPrev]

/-- C2: the _lookup_or_register contract. An already-registered object is
returned unchanged: same state, so no refcount change and no message.
Otherwise the next serial (previous last serial plus one) is allocated, and
is fresh (never reused) whenever every table serial is bounded by
lastSerial; a registration with refcount 0 is constructed and inserted in
both tables; exactly one register message is batched whose kind matches
the object (register_cell for cells, register_block for ExportedState,
register otherwise); and the send-initial-value hook runs before
returning: for a plain scalar cell it finds the just-stored previous value
equal to the current value and emits nothing further, for a stream cell it
is a no-op, and for a childless block object it batches the initial
value(serial, empty dict) message and stores the empty reference dict. -/
theorem c2_lookup_or_register_contract (w : World) (n : Nat) (st : SS)
    (o : Nat) (u : String)
    (hserials : ∀ t ∈ st.serialTable, t ≤ st.lastSerial) :
    (∀ s, alGet st.objTable o = some s →
        lookup_or_register w (n + 5) o u st = .ok (st, s))
    ∧ (alGet st.objTable o = none →
        st.lastSerial + 1 ∉ st.serialTable
        ∧ (freshReg w o (st.lastSerial + 1) u).refcount = 0
        ∧ (w.kind o = .scalarCell →
            lookup_or_register w (n + 5) o u st
              = .ok (lorScalarEnd w st o u, st.lastSerial + 1)
            ∧ (lorScalarEnd w st o u).sendBatch
                = st.sendBatch
                  ++ [.msg (.register_cell (st.lastSerial + 1) u (w.cellDesc o))]
            ∧ (lorScalarEnd w st o u).frames = st.frames
            ∧ (lorScalarEnd w st o u).lastSerial = st.lastSerial + 1
            ∧ alGet (lorScalarEnd w st o u).objTable o = some (st.lastSerial + 1)
            ∧ (st.lastSerial + 1) ∈ (lorScalarEnd w st o u).serialTable
            ∧ alGet (lorScalarEnd w st o u).heap (st.lastSerial + 1)
                = some (regWithScalarPrev (freshReg w o (st.lastSerial + 1) u)
                    (w.cellValue o)))
        ∧ (w.kind o = .streamCell →
            lookup_or_register w (n + 5) o u st
              = .ok (lorStreamEnd w st o u, st.lastSerial + 1)
            ∧ (lorStreamEnd w st o u).sendBatch
                = st.sendBatch
                  ++ [.msg (.register_cell (st.lastSerial + 1) u (w.cellDesc o))]
            ∧ (lorStreamEnd w st o u).frames = st.frames
            ∧ (lorStreamEnd w st o u).lastSerial = st.lastSerial + 1
            ∧ alGet (lorStreamEnd w st o u).objTable o = some (st.lastSerial + 1)
            ∧ (st.lastSerial + 1) ∈ (lorStreamEnd w st o u).serialTable
            ∧ alGet (lorStreamEnd w st o u).heap (st.lastSerial + 1)
                = some (freshReg w o (st.lastSerial + 1) u))
        ∧ (w.kind o = .exported → w.blockState o = [] →
            lookup_or_register w (n + 5) o u st
              = .ok (lorExportedEnd w st o u, st.lastSerial + 1)
            ∧ (lorExportedEnd w st o u).sendBatch
                = st.sendBatch
                  ++ [.msg (.register_block (st.lastSerial + 1) u (w.interfaces o)),
                      .msg (.valueMap (st.lastSerial + 1) [])]
            ∧ (lorExportedEnd w st o u).frames = st.frames
            ∧ (lorExportedEnd w st o u).lastSerial = st.lastSerial + 1
            ∧ alGet (lorExportedEnd w st o u).objTable o = some (st.lastSerial + 1)
            ∧ (st.lastSerial + 1) ∈ (lorExportedEnd w st o u).serialTable
            ∧ alGet (lorExportedEnd w st o u).heap (st.lastSerial + 1)
                = some (regWithRefsPrev (freshReg w o (st.lastSerial + 1) u) []))
        ∧ (w.kind o = .plain → w.blockState o = [] →
            lookup_or_register w (n + 5) o u st
              = .ok (lorPlainEnd w st o u, st.lastSerial + 1)
            ∧ (lorPlainEnd w st o u).sendBatch
                = st.sendBatch
                  ++ [.msg (.register (st.lastSerial + 1) u),
                      .msg (.valueMap (st.lastSerial + 1) [])]
            ∧ (lorPlainEnd w st o u).frames = st.frames
            ∧ (lorPlainEnd w st o u).lastSerial = st.lastSerial + 1
            ∧ alGet (lorPlainEnd w st o u).objTable o = some (st.lastSerial + 1)
            ∧ (st.lastSerial + 1) ∈ (lorPlainEnd w st o u).serialTable
            ∧ alGet (lorPlainEnd w st o u).heap (st.lastSerial + 1)
                = some (regWithRefsPrev (freshReg w o (st.lastSerial + 1) u) []))) := by
  constructor
  · intro s hs
    exact lor_run_registered w n st o s u hs
  · intro hget
    refine ⟨?_, rfl, ?_, ?_, ?_, ?_⟩
    · intro hmem
      have := hserials _ hmem
      omega
    · intro hk
      refine ⟨lor_run_scalar w n st o u hget hk, ?_, ?_, ?_, ?_, ?_, ?_⟩ <;>
        simp [lorScalarEnd, insertFreshReg, send1_false_sendBatch,
          send1_false_frames, send1_false_objTable, send1_false_serialTable,
          send1_false_lastSerial, send1_false_heap, alGet_alSet_self]
    · intro hk
      refine ⟨lor_run_stream w n st o u hget hk, ?_, ?_, ?_, ?_, ?_, ?_⟩ <;>
        simp [lorStreamEnd, insertFreshReg, send1_false_sendBatch,
          send1_false_frames, send1_false_objTable, send1_false_serialTable,
          send1_false_lastSerial, send1_false_heap, alGet_alSet_self]
    · intro hk hbs
      refine ⟨lor_run_exported w n st o u hget hk hbs, ?_, ?_, ?_, ?_, ?_, ?_⟩ <;>
        simp [lorExportedEnd, insertFreshReg, send1_false_sendBatch,
          send1_false_frames, send1_false_objTable, send1_false_serialTable,
          send1_false_lastSerial, send1_false_heap, alGet_alSet_self]
    · intro hk hbs
      refine ⟨lor_run_plain w n st o u hget hk hbs, ?_, ?_, ?_, ?_, ?_, ?_⟩ <;>
        simp [lorPlainEnd, insertFreshReg, send1_false_sendBatch,
          send1_false_frames, send1_false_objTable, send1_false_serialTable,
          send1_false_lastSerial, send1_false_heap, alGet_alSet_self]

/-- C2 witness: registering the scalar cell 1 and the childless
ExportedState 3 against an empty session allocates serial 1 with the stated
end states; looking object 1 up in a session that already registered it at
serial 9 returns that registration with the state unchanged. -/
theorem c2_lookup_or_register_witness :
    lookup_or_register wKinds 5 1 "/radio/v" emptySS
      = .ok (lorScalarEnd wKinds emptySS 1 "/radio/v", 1)
    ∧ lookup_or_register wKinds 5 3 "/radio/b" emptySS
      = .ok (lorExportedEnd wKinds emptySS 3 "/radio/b", 1)
    ∧ lookup_or_register wKinds 5 1 "/x" stObj1At9 = .ok (stObj1At9, 9) := by
  refine ⟨?_, ?_, ?_⟩
  · exact (((c2_lookup_or_register_contract wKinds 0 emptySS 1 "/radio/v"
      (by intro t ht; simp [emptySS] at ht)).2 rfl).2.2.1 rfl).1
  · exact (((c2_lookup_or_register_contract wKinds 0 emptySS 3 "/radio/b"
      (by intro t ht; simp [emptySS] at ht)).2 rfl).2.2.2.2.1 rfl rfl).1
  · exact (c2_lookup_or_register_contract wKinds 0 stObj1At9 1 "/x"
      (by intro t ht; simp [stObj1At9] at ht ⊢; omega)).1 9 rfl

theorem drop_obj_run (o : Nat) (st : SS) (s : Nat) (r : Reg)
    (ho : alGet st.objTable o = some s) (hr : alGet st.heap s = some r)
    (hser : r.serial ∈ st.serialTable) :
    drop_obj o st = .ok { st with
      heap := alSet st.heap s (regUnsub r),
      serialTable := st.serialTable.erase r.serial,
      objTable := alDel st.objTable o } := by
  simp [drop_obj, ho, hr, hser, getK_some, except_bind_ok, regUnsub]

theorem dropList_run (entries : List (Nat × Nat)) :
    ∀ (st : SS) (rg : Nat → Reg), st.objTable = entries →
      (entries.map Prod.fst).Nodup →
      (entries.map Prod.snd).Nodup →
      st.serialTable.Perm (entries.map Prod.snd) →
      (∀ p ∈ entries, alGet st.heap p.2 = some (rg p.2) ∧ (rg p.2).serial = p.2) →
      ∃ st1, dropList (entries.map Prod.fst) st = .ok st1
        ∧ st1.objTable = []
        ∧ st1.serialTable = []
        ∧ st1.sendBatch = st.sendBatch
        ∧ st1.frames = st.frames
        ∧ st1.batchDelay = st.batchDelay
        ∧ st1.outstanding = st.outstanding
        ∧ (∀ p ∈ entries, alGet st1.heap p.2 = some (regUnsub (rg p.2)))
        ∧ (∀ t, t ∉ entries.map Prod.snd → alGet st1.heap t = alGet st.heap t) := by
  induction entries with
  | nil =>
    intro st rg hobj _ _ hperm _
    refine ⟨st, rfl, hobj, ?_, rfl, rfl, rfl, rfl, by simp, fun t _ => rfl⟩
    exact List.Perm.eq_nil hperm
  | cons hd tl ih =>
    intro st rg hobj hknd hvnd hperm hregs
    obtain ⟨o, s⟩ := hd
    have hhd := hregs (o, s) (List.mem_cons_self _ _)
    have hho : alGet st.objTable o = some s := by
      rw [hobj]; simp [alGet]
    have hsmem : s ∈ st.serialTable := by
      refine hperm.symm.subset ?_
      simp
    have hstep := drop_obj_run o st s (rg s) hho hhd.1 (by rw [hhd.2]; exact hsmem)
    simp only [List.map_cons] at hknd hvnd
    have hknd' := hknd.of_cons
    have hvnd' := hvnd.of_cons
    have hsnotin : s ∉ tl.map Prod.snd := by
      simp only [List.nodup_cons] at hvnd
      exact hvnd.1
    have honotin : o ∉ tl.map Prod.fst := by
      simp only [List.nodup_cons] at hknd
      exact hknd.1
    set st2 : SS := { st with
      heap := alSet st.heap s (regUnsub (rg s)),
      serialTable := st.serialTable.erase (rg s).serial,
      objTable := alDel st.objTable o } with hst2
    have hobj2 : st2.objTable = tl := by
      rw [hst2]; show alDel st.objTable o = tl
      rw [hobj]; simp [alDel]
    have hperm2 : st2.serialTable.Perm (tl.map Prod.snd) := by
      rw [hst2]; show (st.serialTable.erase (rg s).serial).Perm _
      rw [hhd.2]
      have := hperm.erase s
      simpa using this
    have hregs2 : ∀ p ∈ tl, alGet st2.heap p.2 = some (rg p.2) ∧ (rg p.2).serial = p.2 := by
      intro p hp
      have hps : p.2 ≠ s := by
        intro hcontra
        exact hsnotin (hcontra ▸ List.mem_map_of_mem Prod.snd hp)
      have := hregs p (List.mem_cons_of_mem _ hp)
      refine ⟨?_, this.2⟩
      rw [hst2]
      show alGet (alSet st.heap s (regUnsub (rg s))) p.2 = _
      rw [alGet_alSet_ne _ _ _ _ (Ne.symm hps)]
      exact this.1
    obtain ⟨st1, hrun, ho1, hs1, hb1, hf1, hbd1, hout1, hheap1, huntouched1⟩ :=
      ih st2 rg hobj2 hknd' hvnd' hperm2 hregs2
    refine ⟨st1, ?_, ho1, hs1, ?_, ?_, ?_, ?_, ?_, ?_⟩
    · show dropList (o :: tl.map Prod.fst) st = .ok st1
      simp only [dropList, hstep, except_bind_ok]
      exact hrun
    · rw [hb1]
    · rw [hf1]
    · rw [hbd1]
    · rw [hout1]
    · intro p hp
      rcases List.mem_cons.1 hp with hph | hpt
      · subst hph
        have : alGet st1.heap s = alGet st2.heap s := huntouched1 s hsnotin
        rw [this, hst2]
        show alGet (alSet st.heap s (regUnsub (rg s))) s = _
        exact alGet_alSet_self _ _ _
      · exact hheap1 p hpt
    · intro t ht
      simp only [List.map_cons, List.mem_cons] at ht
      push_neg at ht
      have h1 : alGet st1.heap t = alGet st2.heap t := huntouched1 t ht.2
      rw [h1, hst2]
      show alGet (alSet st.heap s (regUnsub (rg s))) t = _
      exact alGet_alSet_ne _ _ _ _ (fun hcontra => ht.1 hcontra.symm)

/-- C10: when the channel closes, connectionLost drops every Registration
the session holds: each poller registration is unsubscribed and both tables
end empty, while every heap record keeps its refcount, deadness and
previous value unchanged (only the subscription flag flips), no refcount is
read or decremented, and neither the batch nor the frame transcript
changes, so no wire message (in particular no delete) is emitted during
teardown; delete messages arise only from the refcount-zero path inside
dec_refcount_and_maybe_notify, which teardown never calls. -/
theorem c10_connectionLost_drops_without_refcounting (st : SS) (rg : Nat → Reg)
    (hknd : (st.objTable.map Prod.fst).Nodup)
    (hvnd : (st.objTable.map Prod.snd).Nodup)
    (hperm : st.serialTable.Perm (st.objTable.map Prod.snd))
    (hregs : ∀ p ∈ st.objTable,
      alGet st.heap p.2 = some (rg p.2) ∧ (rg p.2).serial = p.2) :
    ∃ st1, connectionLost st = .ok st1
      ∧ st1.objTable = []
      ∧ st1.serialTable = []
      ∧ st1.sendBatch = st.sendBatch
      ∧ st1.frames = st.frames
      ∧ st1.batchDelay = st.batchDelay
      ∧ st1.outstanding = st.outstanding
      ∧ (∀ p ∈ st.objTable, alGet st1.heap p.2 = some (regUnsub (rg p.2)))
      ∧ (∀ t, t ∉ st.objTable.map Prod.snd → alGet st1.heap t = alGet st.heap t) :=
  dropList_run st.objTable st rg rfl hknd hvnd hperm hregs

/-- C10 witness: tearing down the two-registration session empties both
tables, keeps the batch and frames, and leaves both records alive with
their refcounts but unsubscribed. -/
theorem c10_connectionLost_witness :
    ∃ st1, connectionLost stTwoRegs = .ok st1
      ∧ st1.objTable = []
      ∧ st1.serialTable = []
      ∧ st1.sendBatch = stTwoRegs.sendBatch
      ∧ st1.frames = stTwoRegs.frames
      ∧ alGet st1.heap 3 = some (regUnsub regT3)
      ∧ alGet st1.heap 5 = some (regUnsub regT5) := by
  obtain ⟨st1, h1, h2, h3, h4, h5, _, _, hh, _⟩ :=
    c10_connectionLost_drops_without_refcounting stTwoRegs rgTwoRegs
      (by decide) (by decide) (by decide) (by decide)
  refine ⟨st1, h1, h2, h3, h4, h5, ?_, ?_⟩
  · exact hh (10, 3) (by decide)
  · exact hh (20, 5) (by decide)

theorem sortNat_perm (l : List Nat) : (sortNat l).Perm l :=
  List.perm_insertionSort _ l

theorem mem_sortNat {a : Nat} {l : List Nat} : a ∈ sortNat l ↔ a ∈ l :=
  (sortNat_perm l).mem_iff

theorem sortNat_nodup {l : List Nat} (h : l.Nodup) : (sortNat l).Nodup :=
  ((sortNat_perm l).nodup_iff).2 h

theorem sortNat_length (l : List Nat) : (sortNat l).length = l.length :=
  (sortNat_perm l).length_eq

theorem sortNat_eq_of_perm {l1 l2 : List Nat} (h : l1.Perm l2) :
    sortNat l1 = sortNat l2 :=
  List.eq_of_perm_of_sorted
    ((sortNat_perm l1).trans (h.trans (sortNat_perm l2).symm))
    (List.sorted_insertionSort _ l1) (List.sorted_insertionSort _ l2)

theorem dec_finalize_step (fuel s : Nat) (st : SS) (r : Reg)
    (hr : alGet st.heap s = some r) (hdead : r.dead = false) (hrc : r.refcount = 1)
    (hflag : r.valueIsReferences = false) (hser : r.serial = s)
    (hobj : alGet st.objTable r.obj = some s) (hsmem : s ∈ st.serialTable) :
    ∃ st1, dec_refcount_and_maybe_notify (fuel + 1) s st = .ok st1
      ∧ st1.heap = alSet st.heap s (finalizedReg r)
      ∧ st1.objTable = alDel st.objTable r.obj
      ∧ st1.serialTable = st.serialTable.erase s
      ∧ st1.sendBatch = st.sendBatch ++ [.msg (.delete s)]
      ∧ st1.frames = st.frames
      ∧ st1.lastSerial = st.lastSerial := by
  refine ⟨?w, ?h1, ?h2, ?h3, ?h4, ?h5, ?h6, ?h7⟩
  case h1 =>
    simp only [dec_refcount_and_maybe_notify, hr, getK_some, except_bind_ok, hdead,
      hser, hrc, hflag, hobj, hsmem, do_delete, drop_obj, decRefList,
      send1_false_heap, send1_false_objTable, send1_false_serialTable,
      alSet_alSet_self, alGet_alSet_self, Bool.false_eq_true, if_false,
      sub_self, reduceIte, Option.isSome_some, if_true]
    exact rfl
  case h2 =>
    simp [finalizedReg, hser, alSet_alSet_self, send1_false_heap]
  case h3 => simp [send1_false_objTable]
  case h4 => simp [send1_false_serialTable, hser]
  case h5 => simp [send1_false_sendBatch]
  case h6 => simp [send1_false_frames]
  case h7 => simp [send1_false_lastSerial]

theorem decRefList_cascade (os : List Nat) :
    ∀ (fuel : Nat) (st : SS) (sm : Nat → Nat) (rg : Nat → Reg),
      os.length + 1 ≤ fuel →
      os.Nodup →
      (∀ o ∈ os, alGet st.objTable o = some (sm o)) →
      (∀ o ∈ os, alGet st.heap (sm o) = some (rg o)) →
      (∀ o ∈ os, (rg o).dead = false ∧ (rg o).refcount = 1
        ∧ (rg o).valueIsReferences = false ∧ (rg o).serial = sm o
        ∧ (rg o).obj = o) →
      (∀ o ∈ os, sm o ∈ st.serialTable) →
      (∀ o1 ∈ os, ∀ o2 ∈ os, o1 ≠ o2 → sm o1 ≠ sm o2) →
      (st.objTable.map Prod.fst).Nodup →
      st.serialTable.Nodup →
      ∃ st1, decRefList fuel os st = .ok st1
        ∧ st1.sendBatch = st.sendBatch ++ os.map (fun o => .msg (.delete (sm o)))
        ∧ st1.frames = st.frames
        ∧ st1.lastSerial = st.lastSerial
        ∧ (∀ o ∈ os, alGet st1.objTable o = none)
        ∧ (∀ o ∈ os, alGet st1.heap (sm o) = some (finalizedReg (rg o)))
        ∧ (∀ o ∈ os, sm o ∉ st1.serialTable)
        ∧ (∀ x, x ∉ os → alGet st1.objTable x = alGet st.objTable x)
        ∧ (∀ t, (∀ o ∈ os, t ≠ sm o) → alGet st1.heap t = alGet st.heap t)
        ∧ (∀ t, (∀ o ∈ os, t ≠ sm o) → (t ∈ st1.serialTable ↔ t ∈ st.serialTable))
        ∧ (st1.objTable.map Prod.fst).Nodup
        ∧ st1.serialTable.Nodup := by
  induction os with
  | nil =>
    intro fuel st sm rg hfuel hnd hobj hheap hfields hmem hinj hknd hsnd
    exact ⟨st, by cases fuel <;> rfl, by simp, rfl, rfl, by simp, by simp, by simp,
      fun x _ => rfl, fun t _ => rfl, fun t _ => Iff.rfl, hknd, hsnd⟩
  | cons o os ih =>
    intro fuel st sm rg hfuel hnd hobj hheap hfields hmem hinj hknd hsnd
    have hfuel' : os.length + 2 ≤ fuel := by simpa using hfuel
    obtain ⟨f, rfl⟩ : ∃ f, fuel = f + 1 := ⟨fuel - 1, by omega⟩
    obtain ⟨f2, rfl⟩ : ∃ f2, f = f2 + 1 := ⟨f - 1, by omega⟩
    have hofld := hfields o (List.mem_cons_self _ _)
    have hstep := dec_finalize_step f2 (sm o) st (rg o)
      (hheap o (List.mem_cons_self _ _)) hofld.1 hofld.2.1 hofld.2.2.1
      hofld.2.2.2.1 (by rw [hofld.2.2.2.2]; exact hobj o (List.mem_cons_self _ _))
      (hmem o (List.mem_cons_self _ _))
    obtain ⟨st2, hrun2, hheap2, hobj2, hser2, hbatch2, hframes2, hlast2⟩ := hstep
    have hnotin : o ∉ os := (List.nodup_cons.1 hnd).1
    have hnd' : os.Nodup := (List.nodup_cons.1 hnd).2
    have hobj2get : ∀ x ∈ os, alGet st2.objTable x = some (sm x) := by
      intro x hx
      rw [hobj2, hofld.2.2.2.2]
      rw [alGet_alDel_ne _ _ _ (fun hc => hnotin (by rw [hc]; exact hx))]
      exact hobj x (List.mem_cons_of_mem _ hx)
    have hsmne : ∀ x ∈ os, sm x ≠ sm o := by
      intro x hx
      exact hinj x (List.mem_cons_of_mem _ hx) o (List.mem_cons_self _ _)
        (fun hc => hnotin (hc ▸ hx))
    have hheap2get : ∀ x ∈ os, alGet st2.heap (sm x) = some (rg x) := by
      intro x hx
      rw [hheap2, alGet_alSet_ne _ _ _ _ (fun hc => hsmne x hx hc.symm)]
      exact hheap x (List.mem_cons_of_mem _ hx)
    have hmem2 : ∀ x ∈ os, sm x ∈ st2.serialTable := by
      intro x hx
      rw [hser2]
      exact hsnd.mem_erase_iff.2 ⟨hsmne x hx, hmem x (List.mem_cons_of_mem _ hx)⟩
    have hknd2 : (st2.objTable.map Prod.fst).Nodup := by
      rw [hobj2]; exact alDel_keys_nodup _ _ hknd
    have hsnd2 : st2.serialTable.Nodup := by
      rw [hser2]; exact hsnd.erase _
    have hinj2 : ∀ o1 ∈ os, ∀ o2 ∈ os, o1 ≠ o2 → sm o1 ≠ sm o2 := by
      intro o1 h1 o2 h2 hne
      exact hinj o1 (List.mem_cons_of_mem _ h1) o2 (List.mem_cons_of_mem _ h2) hne
    have hfields2 : ∀ x ∈ os, (rg x).dead = false ∧ (rg x).refcount = 1
        ∧ (rg x).valueIsReferences = false ∧ (rg x).serial = sm x ∧ (rg x).obj = x :=
      fun x hx => hfields x (List.mem_cons_of_mem _ hx)
    obtain ⟨st1, hrun1, hbatch1, hframes1, hlast1, hobjnone1, hheapfin1, hsernot1,
        hobjun1, hheapun1, hserun1, hknd1, hsnd1⟩ :=
      ih (f2 + 1) st2 sm rg (by omega) hnd' hobj2get hheap2get
        hfields2 hmem2 hinj2 hknd2 hsnd2
    refine ⟨st1, ?_, ?_, ?_, ?_, ?_, ?_, ?_, ?_, ?_, ?_, hknd1, hsnd1⟩
    · show decRefList (f2 + 1 + 1) (o :: os) st = .ok st1
      simp only [decRefList, hobj o (List.mem_cons_self _ _), getK_some,
        except_bind_ok, hrun2]
      exact hrun1
    · rw [hbatch1, hbatch2]
      simp
    · rw [hframes1, hframes2]
    · rw [hlast1, hlast2]
    · intro x hx
      rcases List.mem_cons.1 hx with hxh | hxt
      · subst hxh
        rw [hobjun1 x hnotin, hobj2, hofld.2.2.2.2]
        exact alGet_alDel_self _ _ hknd
      · exact hobjnone1 x hxt
    · intro x hx
      rcases List.mem_cons.1 hx with hxh | hxt
      · subst hxh
        rw [hheapun1 (sm x) (fun o2 ho2 => (hsmne o2 ho2).symm), hheap2]
        exact alGet_alSet_self _ _ _
      · exact hheapfin1 x hxt
    · intro x hx
      rcases List.mem_cons.1 hx with hxh | hxt
      · subst hxh
        intro hcontra
        have := (hserun1 (sm x) (fun o2 ho2 => (hsmne o2 ho2).symm)).1 hcontra
        rw [hser2] at this
        exact hsnd.not_mem_erase this
      · exact hsernot1 x hxt
    · intro x hx
      simp only [List.mem_cons] at hx
      push_neg at hx
      rw [hobjun1 x hx.2, hobj2, hofld.2.2.2.2]
      exact alGet_alDel_ne _ _ _ (fun hc => hx.1 hc.symm)
    · intro t ht
      have hto : t ≠ sm o := ht o (List.mem_cons_self _ _)
      rw [hheapun1 t (fun o2 ho2 => ht o2 (List.mem_cons_of_mem _ ho2)), hheap2]
      exact alGet_alSet_ne _ _ _ _ (Ne.symm hto)
    · intro t ht
      have hto : t ≠ sm o := ht o (List.mem_cons_self _ _)
      rw [hserun1 t (fun o2 ho2 => ht o2 (List.mem_cons_of_mem _ ho2)), hser2]
      exact hsnd.mem_erase_iff.trans (by simp [hto])

theorem dec_finalize_refs_step (f s : Nat) (st : SS) (r : Reg)
    (m : List (String × Nat))
    (hr : alGet st.heap s = some r) (hdead : r.dead = false) (hrc : r.refcount = 1)
    (hflag : r.valueIsReferences = true)
    (hprev : r.previousValue = some (.dictRefs m))
    (hser : r.serial = s)
    (hobj : alGet st.objTable r.obj = some s) (hsmem : s ∈ st.serialTable) :
    ∃ st4, dec_refcount_and_maybe_notify (f + 1) s st
        = decRefList f (sortNat (m.map Prod.snd)) st4
      ∧ st4.heap = alSet st.heap s (finalizedReg r)
      ∧ st4.objTable = alDel st.objTable r.obj
      ∧ st4.serialTable = st.serialTable.erase s
      ∧ st4.sendBatch = st.sendBatch ++ [.msg (.delete s)]
      ∧ st4.frames = st.frames
      ∧ st4.lastSerial = st.lastSerial := by
  refine ⟨?w, ?h1, ?h2, ?h3, ?h4, ?h5, ?h6, ?h7⟩
  case h1 =>
    simp only [dec_refcount_and_maybe_notify, hr, getK_some, except_bind_ok, hdead,
      hser, hrc, hflag, hprev, hobj, hsmem, do_delete, drop_obj, capturedRefs,
      send1_false_heap, send1_false_objTable, send1_false_serialTable,
      alSet_alSet_self, alGet_alSet_self, Bool.false_eq_true, if_false,
      sub_self, reduceIte, Option.isSome_some, if_true]
    exact rfl
  case h2 =>
    simp [finalizedReg, hser, alSet_alSet_self, send1_false_heap]
  case h3 => simp [send1_false_objTable]
  case h4 => simp [send1_false_serialTable, hser]
  case h5 => simp [send1_false_sendBatch]
  case h6 => simp [send1_false_frames]
  case h7 => simp [send1_false_lastSerial]

theorem dec_refs_finalize_full (f s : Nat) (st : SS) (r : Reg)
    (m : List (String × Nat)) (sm : Nat → Nat) (rg : Nat → Reg)
    (hr : alGet st.heap s = some r) (hdead : r.dead = false)
    (hrc : r.refcount = 1) (hflag : r.valueIsReferences = true)
    (hprev : r.previousValue = some (.dictRefs m))
    (hser : r.serial = s) (hobj : alGet st.objTable r.obj = some s)
    (hsmem : s ∈ st.serialTable)
    (hfuel : (m.map Prod.snd).length + 1 ≤ f)
    (hndvals : (m.map Prod.snd).Nodup)
    (hobjs : ∀ o ∈ m.map Prod.snd, alGet st.objTable o = some (sm o))
    (hheaps : ∀ o ∈ m.map Prod.snd, alGet st.heap (sm o) = some (rg o))
    (hfields : ∀ o ∈ m.map Prod.snd, (rg o).dead = false ∧ (rg o).refcount = 1
      ∧ (rg o).valueIsReferences = false ∧ (rg o).serial = sm o ∧ (rg o).obj = o)
    (hsmems : ∀ o ∈ m.map Prod.snd, sm o ∈ st.serialTable)
    (hinj : ∀ o1 ∈ m.map Prod.snd, ∀ o2 ∈ m.map Prod.snd, o1 ≠ o2 → sm o1 ≠ sm o2)
    (hrootref : r.obj ∉ m.map Prod.snd)
    (hsne : ∀ o ∈ m.map Prod.snd, sm o ≠ s)
    (hknd : (st.objTable.map Prod.fst).Nodup)
    (hsnd : st.serialTable.Nodup) :
    ∃ st1, dec_refcount_and_maybe_notify (f + 1) s st = .ok st1
      ∧ st1.sendBatch
          = st.sendBatch ++ [.msg (.delete s)]
            ++ (sortNat (m.map Prod.snd)).map (fun o => .msg (.delete (sm o)))
      ∧ st1.frames = st.frames
      ∧ alGet st1.heap s = some (finalizedReg r)
      ∧ alGet st1.objTable r.obj = none
      ∧ s ∉ st1.serialTable
      ∧ (∀ o ∈ m.map Prod.snd, alGet st1.objTable o = none)
      ∧ (∀ o ∈ m.map Prod.snd, alGet st1.heap (sm o) = some (finalizedReg (rg o)))
      ∧ (∀ o ∈ m.map Prod.snd, sm o ∉ st1.serialTable) := by
  obtain ⟨st4, hrun4, hheap4, hobj4, hser4, hbatch4, hframes4, hlast4⟩ :=
    dec_finalize_refs_step f s st r m hr hdead hrc hflag hprev hser hobj hsmem
  have hsorted := sortNat_perm (m.map Prod.snd)
  have hmemiff : ∀ o, o ∈ sortNat (m.map Prod.snd) ↔ o ∈ m.map Prod.snd :=
    fun o => mem_sortNat
  obtain ⟨st1, hrun1, hbatch1, hframes1, hlast1, hobjnone1, hheapfin1, hsernot1,
      hobjun1, hheapun1, hserun1, hknd1, hsnd1⟩ :=
    decRefList_cascade (sortNat (m.map Prod.snd)) f st4 sm rg
      (by rw [sortNat_length]; exact hfuel)
      (sortNat_nodup hndvals)
      (by intro o ho
          rw [hobj4]
          rw [alGet_alDel_ne _ _ _
            (fun hc => hrootref (by rw [hc]; exact (hmemiff o).1 ho))]
          exact hobjs o ((hmemiff o).1 ho))
      (by intro o ho
          rw [hheap4]
          rw [alGet_alSet_ne _ _ _ _ (Ne.symm (hsne o ((hmemiff o).1 ho)))]
          exact hheaps o ((hmemiff o).1 ho))
      (fun o ho => hfields o ((hmemiff o).1 ho))
      (by intro o ho
          rw [hser4]
          exact hsnd.mem_erase_iff.2
            ⟨hsne o ((hmemiff o).1 ho), hsmems o ((hmemiff o).1 ho)⟩)
      (fun o1 h1 o2 h2 hne =>
        hinj o1 ((hmemiff o1).1 h1) o2 ((hmemiff o2).1 h2) hne)
      (by rw [hobj4]; exact alDel_keys_nodup _ _ hknd)
      (by rw [hser4]; exact hsnd.erase _)
  refine ⟨st1, hrun4.trans hrun1, ?_, ?_, ?_, ?_, ?_, ?_, ?_, ?_⟩
  · rw [hbatch1, hbatch4]
  · rw [hframes1, hframes4]
  · rw [hheapun1 s (fun o ho => (hsne o ((hmemiff o).1 ho)).symm), hheap4]
    exact alGet_alSet_self _ _ _
  · rw [hobjun1 r.obj (fun hc => hrootref ((hmemiff r.obj).1 hc)), hobj4]
    exact alGet_alDel_self _ _ hknd
  · intro hcontra
    have := (hserun1 s (fun o ho => (hsne o ((hmemiff o).1 ho)).symm)).1 hcontra
    rw [hser4] at this
    exact hsnd.not_mem_erase this
  · intro o ho
    exact hobjnone1 o ((hmemiff o).2 ho)
  · intro o ho
    exact hheapfin1 o ((hmemiff o).2 ho)
  · intro o ho
    exact hsernot1 o ((hmemiff o).2 ho)

/-- C1: when dec_refcount_and_maybe_notify takes a reference-holding
registration from refcount 1 to 0 it is finalized immediately and
synchronously: the registration record is marked dead with refcount 0 and
its previous value cleared, a delete(serial) message is batched, the object
leaves the object table and the serial leaves the serial table; and every
object referenced by the stored previous value is decremented recursively
in sorted order, which (their refcounts also reaching zero here) finalizes
each of them in turn, producing the delete messages in ascending object
order regardless of the stored dictionary order. -/
theorem c1_dec_refcount_zero_finalizes (f s : Nat) (st : SS) (r : Reg)
    (m : List (String × Nat)) (sm : Nat → Nat) (rg : Nat → Reg)
    (hr : alGet st.heap s = some r) (hdead : r.dead = false)
    (hrc : r.refcount = 1) (hflag : r.valueIsReferences = true)
    (hprev : r.previousValue = some (.dictRefs m))
    (hser : r.serial = s) (hobj : alGet st.objTable r.obj = some s)
    (hsmem : s ∈ st.serialTable)
    (hfuel : (m.map Prod.snd).length + 1 ≤ f)
    (hndvals : (m.map Prod.snd).Nodup)
    (hobjs : ∀ o ∈ m.map Prod.snd, alGet st.objTable o = some (sm o))
    (hheaps : ∀ o ∈ m.map Prod.snd, alGet st.heap (sm o) = some (rg o))
    (hfields : ∀ o ∈ m.map Prod.snd, (rg o).dead = false ∧ (rg o).refcount = 1
      ∧ (rg o).valueIsReferences = false ∧ (rg o).serial = sm o ∧ (rg o).obj = o)
    (hsmems : ∀ o ∈ m.map Prod.snd, sm o ∈ st.serialTable)
    (hinj : ∀ o1 ∈ m.map Prod.snd, ∀ o2 ∈ m.map Prod.snd, o1 ≠ o2 → sm o1 ≠ sm o2)
    (hrootref : r.obj ∉ m.map Prod.snd)
    (hsne : ∀ o ∈ m.map Prod.snd, sm o ≠ s)
    (hknd : (st.objTable.map Prod.fst).Nodup)
    (hsnd : st.serialTable.Nodup) :
    ∃ st1, dec_refcount_and_maybe_notify (f + 1) s st = .ok st1
      ∧ st1.sendBatch
          = st.sendBatch ++ [.msg (.delete s)]
            ++ (sortNat (m.map Prod.snd)).map (fun o => .msg (.delete (sm o)))
      ∧ st1.frames = st.frames
      ∧ alGet st1.heap s = some (finalizedReg r)
      ∧ alGet st1.objTable r.obj = none
      ∧ s ∉ st1.serialTable
      ∧ (∀ o ∈ m.map Prod.snd, alGet st1.objTable o = none)
      ∧ (∀ o ∈ m.map Prod.snd, alGet st1.heap (sm o) = some (finalizedReg (rg o)))
      ∧ (∀ o ∈ m.map Prod.snd, sm o ∉ st1.serialTable) :=
  dec_refs_finalize_full f s st r m sm rg hr hdead hrc hflag hprev hser hobj
    hsmem hfuel hndvals hobjs hheaps hfields hsmems hinj hrootref hsne hknd hsnd

/-- C1 witness: decrementing registration 5 (objects 20 and 10 stored in
that order) finalizes it and both referenced registrations, batching
delete 5, then delete 7 and delete 6 - the serials of objects 10 and 20 in
ascending object order, not in stored order - and empties both tables. -/
theorem c1_dec_refcount_zero_witness :
    ∃ st1, dec_refcount_and_maybe_notify 4 5 stC1 = .ok st1
      ∧ st1.sendBatch
          = [.msg (.delete 5), .msg (.delete 7), .msg (.delete 6)]
      ∧ alGet st1.heap 5 = some (finalizedReg regC1top)
      ∧ alGet st1.objTable 100 = none
      ∧ alGet st1.objTable 10 = none
      ∧ alGet st1.objTable 20 = none
      ∧ (5 ∉ st1.serialTable ∧ 7 ∉ st1.serialTable ∧ 6 ∉ st1.serialTable) := by
  obtain ⟨st1, hrun, hbatch, hframes, hheap, hobjroot, hserroot, hobjs, hheaps,
      hsers⟩ :=
    c1_dec_refcount_zero_finalizes 3 5 stC1 regC1top [("b", 20), ("a", 10)]
      smC1 rgC1 rfl rfl rfl rfl rfl rfl rfl (by decide) (by decide) (by decide)
      (by decide) (by decide) (by decide) (by decide) (by decide) (by decide)
      (by decide) (by decide) (by decide)
  refine ⟨st1, hrun, hbatch.trans (by decide), hheap, hobjroot, ?_, ?_, ?_, ?_, ?_⟩
  · exact hobjs 10 (by decide)
  · exact hobjs 20 (by decide)
  · exact hserroot
  · exact hsers 10 (by decide)
  · exact hsers 20 (by decide)

theorem alGet_eq_of_perm {α β : Type} [DecidableEq α] {l1 l2 : List (α × β)}
    (h : l1.Perm l2) (hnd : (l1.map Prod.fst).Nodup) (k : α) :
    alGet l1 k = alGet l2 k := by
  induction h with
  | nil => rfl
  | cons x h ih =>
    obtain ⟨kx, vx⟩ := x
    simp only [List.map_cons, List.nodup_cons] at hnd
    by_cases hk : kx = k <;> simp [alGet, hk, ih hnd.2]
  | swap x y l =>
    obtain ⟨kx, vx⟩ := x
    obtain ⟨ky, vy⟩ := y
    simp only [List.map_cons, List.nodup_cons, List.mem_cons] at hnd
    have hxy : ky ≠ kx := fun hc => hnd.1 (Or.inl hc)
    by_cases hk : kx = k
    · subst hk
      simp [alGet, hxy]
    · by_cases hk2 : ky = k <;> simp [alGet, hk, hk2]
  | trans h1 h2 ih1 ih2 =>
    have hnd2 := ((h1.map Prod.fst).nodup_iff).1 hnd
    exact (ih1 hnd).trans (ih2 hnd2)

theorem all_congr_list {α : Type} (l : List α) (p q : α → Bool)
    (h : ∀ x ∈ l, p x = q x) : l.all p = l.all q := by
  induction l with
  | nil => rfl
  | cons hd tl ih =>
    simp only [List.all_cons]
    rw [h hd (List.mem_cons_self _ _), ih (fun x hx => h x (List.mem_cons_of_mem _ hx))]

theorem all_eq_of_perm {α : Type} {l1 l2 : List α} (h : l1.Perm l2) (p : α → Bool) :
    l1.all p = l2.all p := by
  cases hb1 : l1.all p <;> cases hb2 : l2.all p
  · rfl
  · rw [List.all_eq_true] at hb2
    have hc : l1.all p = true := List.all_eq_true.2 (fun x hx => hb2 x (h.mem_iff.1 hx))
    rw [hb1] at hc
    exact hc
  · rw [List.all_eq_true] at hb1
    have hc : l2.all p = true := List.all_eq_true.2 (fun x hx => hb1 x (h.mem_iff.2 hx))
    rw [hb2] at hc
    exact hc.symm
  · rfl

theorem dictEqB_perm_right {objs m1 m2 : List (String × Nat)} (h : m1.Perm m2)
    (hnd : (m1.map Prod.fst).Nodup) :
    dictEqB objs m1 = dictEqB objs m2 := by
  unfold dictEqB
  rw [all_eq_of_perm h, all_congr_list objs _ _
    (fun kv _ => by rw [alGet_eq_of_perm h hnd kv.1])]

theorem regChildren_registered (w : World) (objs : List (String × Nat)) :
    ∀ (fuel : Nat) (url : String) (st : SS) (sn : Nat → Nat),
      objs.length + 1 ≤ fuel →
      (∀ kv ∈ objs, alGet st.objTable kv.2 = some (sn kv.2)) →
      regChildren w fuel url objs st
        = .ok (st, objs.map (fun kv => (kv.1, sn kv.2))) := by
  induction objs with
  | nil =>
    intro fuel url st sn hfuel hreg
    obtain ⟨f, rfl⟩ : ∃ f, fuel = f + 1 := ⟨fuel - 1, by omega⟩
    rfl
  | cons hd tl ih =>
    intro fuel url st sn hfuel hreg
    have hfuel' : tl.length + 2 ≤ fuel := by simpa using hfuel
    obtain ⟨f, rfl⟩ : ∃ f, fuel = f + 1 := ⟨fuel - 1, by omega⟩
    obtain ⟨f2, rfl⟩ : ∃ f2, f = f2 + 1 := ⟨f - 1, by omega⟩
    obtain ⟨k, o⟩ := hd
    have hlor : lookup_or_register w (f2 + 1) o (url ++ "/" ++ k) st = .ok (st, sn o) := by
      rw [lookup_or_register, hreg (k, o) (List.mem_cons_self _ _)]
    show regChildren w (f2 + 1 + 1) url ((k, o) :: tl) st = _
    rw [regChildren]
    rw [hlor]
    rw [except_bind_ok]
    rw [ih (f2 + 1) url st sn (by omega)
      (fun kv hkv => hreg kv (List.mem_cons_of_mem _ hkv))]
    rfl

theorem incList_run (entries : List (String × Nat)) :
    ∀ (st : SS) (rr : Nat → Reg),
      ((entries.map Prod.snd).Nodup) →
      (∀ kv ∈ entries, alGet st.heap kv.2 = some (rr kv.2) ∧ (rr kv.2).dead = false) →
      ∃ st1, incList entries st = .ok st1
        ∧ st1.objTable = st.objTable
        ∧ st1.serialTable = st.serialTable
        ∧ st1.sendBatch = st.sendBatch
        ∧ st1.frames = st.frames
        ∧ st1.lastSerial = st.lastSerial
        ∧ st1.batchDelay = st.batchDelay
        ∧ st1.outstanding = st.outstanding
        ∧ st1.nextTimer = st.nextTimer
        ∧ (∀ t, t ∉ entries.map Prod.snd → alGet st1.heap t = alGet st.heap t) := by
  induction entries with
  | nil =>
    intro st rr hnd hregs
    exact ⟨st, rfl, rfl, rfl, rfl, rfl, rfl, rfl, rfl, rfl, fun t _ => rfl⟩
  | cons hd tl ih =>
    intro st rr hnd hregs
    obtain ⟨k, t0⟩ := hd
    have hh := hregs (k, t0) (List.mem_cons_self _ _)
    simp only [List.map_cons, List.nodup_cons] at hnd
    set st2 : SS := { st with
      heap := alSet st.heap t0 ({ rr t0 with refcount := (rr t0).refcount + 1 }) }
      with hst2
    have hregs2 : ∀ kv ∈ tl, alGet st2.heap kv.2 = some (rr kv.2)
        ∧ (rr kv.2).dead = false := by
      intro kv hkv
      have hne : kv.2 ≠ t0 := fun hc => hnd.1 (hc ▸ List.mem_map_of_mem Prod.snd hkv)
      refine ⟨?_, (hregs kv (List.mem_cons_of_mem _ hkv)).2⟩
      rw [hst2]
      show alGet (alSet st.heap t0 _) kv.2 = _
      rw [alGet_alSet_ne _ _ _ _ (Ne.symm hne)]
      exact (hregs kv (List.mem_cons_of_mem _ hkv)).1
    obtain ⟨st1, hrun, ho, hs, hb, hf, hl, hbd, hout, hnt, hun⟩ := ih st2 rr hnd.2 hregs2
    refine ⟨st1, ?_, ho, hs, hb, hf, hl, hbd, hout, hnt, ?_⟩
    · show incList ((k, t0) :: tl) st = .ok st1
      rw [incList, hh.1, getK_some, except_bind_ok, if_neg (by simp [hh.2])]
      exact hrun
    · intro t ht
      simp only [List.map_cons, List.mem_cons] at ht
      push_neg at ht
      rw [hun t ht.2, hst2]
      show alGet (alSet st.heap t0 _) t = _
      exact alGet_alSet_ne _ _ _ _ (fun hc => ht.1 hc.symm)

theorem decOldRefs_cascade (os : List Nat) :
    ∀ (fuel : Nat) (st : SS) (sm : Nat → Nat) (rg : Nat → Reg),
      os.length + 1 ≤ fuel →
      os.Nodup →
      (∀ o ∈ os, alGet st.objTable o = some (sm o)) →
      (∀ o ∈ os, alGet st.heap (sm o) = some (rg o)) →
      (∀ o ∈ os, (rg o).dead = false ∧ (rg o).refcount = 1
        ∧ (rg o).valueIsReferences = false ∧ (rg o).serial = sm o
        ∧ (rg o).obj = o) →
      (∀ o ∈ os, sm o ∈ st.serialTable) →
      (∀ o1 ∈ os, ∀ o2 ∈ os, o1 ≠ o2 → sm o1 ≠ sm o2) →
      (st.objTable.map Prod.fst).Nodup →
      st.serialTable.Nodup →
      ∃ st1, decOldRefs fuel os st = .ok st1
        ∧ st1.sendBatch = st.sendBatch ++ os.map (fun o => .msg (.delete (sm o)))
        ∧ st1.frames = st.frames
        ∧ st1.lastSerial = st.lastSerial
        ∧ (∀ o ∈ os, alGet st1.objTable o = none)
        ∧ (∀ o ∈ os, alGet st1.heap (sm o) = some (finalizedReg (rg o)))
        ∧ (∀ o ∈ os, sm o ∉ st1.serialTable)
        ∧ (∀ x, x ∉ os → alGet st1.objTable x = alGet st.objTable x)
        ∧ (∀ t, (∀ o ∈ os, t ≠ sm o) → alGet st1.heap t = alGet st.heap t)
        ∧ (∀ t, (∀ o ∈ os, t ≠ sm o) → (t ∈ st1.serialTable ↔ t ∈ st.serialTable))
        ∧ (st1.objTable.map Prod.fst).Nodup
        ∧ st1.serialTable.Nodup := by
  induction os with
  | nil =>
    intro fuel st sm rg hfuel hnd hobj hheap hfields hmem hinj hknd hsnd
    exact ⟨st, by cases fuel <;> rfl, by simp, rfl, rfl, by simp, by simp, by simp,
      fun x _ => rfl, fun t _ => rfl, fun t _ => Iff.rfl, hknd, hsnd⟩
  | cons o os ih =>
    intro fuel st sm rg hfuel hnd hobj hheap hfields hmem hinj hknd hsnd
    have hfuel' : os.length + 2 ≤ fuel := by simpa using hfuel
    obtain ⟨f, rfl⟩ : ∃ f, fuel = f + 1 := ⟨fuel - 1, by omega⟩
    obtain ⟨f2, rfl⟩ : ∃ f2, f = f2 + 1 := ⟨f - 1, by omega⟩
    have hofld := hfields o (List.mem_cons_self _ _)
    have hstep := dec_finalize_step f2 (sm o) st (rg o)
      (hheap o (List.mem_cons_self _ _)) hofld.1 hofld.2.1 hofld.2.2.1
      hofld.2.2.2.1 (by rw [hofld.2.2.2.2]; exact hobj o (List.mem_cons_self _ _))
      (hmem o (List.mem_cons_self _ _))
    obtain ⟨st2, hrun2, hheap2, hobj2, hser2, hbatch2, hframes2, hlast2⟩ := hstep
    have hnotin : o ∉ os := (List.nodup_cons.1 hnd).1
    have hnd' : os.Nodup := (List.nodup_cons.1 hnd).2
    have hobj2get : ∀ x ∈ os, alGet st2.objTable x = some (sm x) := by
      intro x hx
      rw [hobj2, hofld.2.2.2.2]
      rw [alGet_alDel_ne _ _ _ (fun hc => hnotin (by rw [hc]; exact hx))]
      exact hobj x (List.mem_cons_of_mem _ hx)
    have hsmne : ∀ x ∈ os, sm x ≠ sm o := by
      intro x hx
      exact hinj x (List.mem_cons_of_mem _ hx) o (List.mem_cons_self _ _)
        (fun hc => hnotin (hc ▸ hx))
    have hheap2get : ∀ x ∈ os, alGet st2.heap (sm x) = some (rg x) := by
      intro x hx
      rw [hheap2, alGet_alSet_ne _ _ _ _ (fun hc => hsmne x hx hc.symm)]
      exact hheap x (List.mem_cons_of_mem _ hx)
    have hmem2 : ∀ x ∈ os, sm x ∈ st2.serialTable := by
      intro x hx
      rw [hser2]
      exact hsnd.mem_erase_iff.2 ⟨hsmne x hx, hmem x (List.mem_cons_of_mem _ hx)⟩
    have hknd2 : (st2.objTable.map Prod.fst).Nodup := by
      rw [hobj2]; exact alDel_keys_nodup _ _ hknd
    have hsnd2 : st2.serialTable.Nodup := by
      rw [hser2]; exact hsnd.erase _
    have hinj2 : ∀ o1 ∈ os, ∀ o2 ∈ os, o1 ≠ o2 → sm o1 ≠ sm o2 := by
      intro o1 h1 o2 h2 hne
      exact hinj o1 (List.mem_cons_of_mem _ h1) o2 (List.mem_cons_of_mem _ h2) hne
    have hfields2 : ∀ x ∈ os, (rg x).dead = false ∧ (rg x).refcount = 1
        ∧ (rg x).valueIsReferences = false ∧ (rg x).serial = sm x ∧ (rg x).obj = x :=
      fun x hx => hfields x (List.mem_cons_of_mem _ hx)
    obtain ⟨st1, hrun1, hbatch1, hframes1, hlast1, hobjnone1, hheapfin1, hsernot1,
        hobjun1, hheapun1, hserun1, hknd1, hsnd1⟩ :=
      ih (f2 + 1) st2 sm rg (by omega) hnd' hobj2get hheap2get
        hfields2 hmem2 hinj2 hknd2 hsnd2
    refine ⟨st1, ?_, ?_, ?_, ?_, ?_, ?_, ?_, ?_, ?_, ?_, hknd1, hsnd1⟩
    · show decOldRefs (f2 + 1 + 1) (o :: os) st = .ok st1
      simp only [decOldRefs, hobj o (List.mem_cons_self _ _), except_bind_ok, hrun2]
      exact hrun1
    · rw [hbatch1, hbatch2]
      simp
    · rw [hframes1, hframes2]
    · rw [hlast1, hlast2]
    · intro x hx
      rcases List.mem_cons.1 hx with hxh | hxt
      · subst hxh
        rw [hobjun1 x hnotin, hobj2, hofld.2.2.2.2]
        exact alGet_alDel_self _ _ hknd
      · exact hobjnone1 x hxt
    · intro x hx
      rcases List.mem_cons.1 hx with hxh | hxt
      · subst hxh
        rw [hheapun1 (sm x) (fun o2 ho2 => (hsmne o2 ho2).symm), hheap2]
        exact alGet_alSet_self _ _ _
      · exact hheapfin1 x hxt
    · intro x hx
      rcases List.mem_cons.1 hx with hxh | hxt
      · subst hxh
        intro hcontra
        have := (hserun1 (sm x) (fun o2 ho2 => (hsmne o2 ho2).symm)).1 hcontra
        rw [hser2] at this
        exact hsnd.not_mem_erase this
      · exact hsernot1 x hxt
    · intro x hx
      simp only [List.mem_cons] at hx
      push_neg at hx
      rw [hobjun1 x hx.2, hobj2, hofld.2.2.2.2]
      exact alGet_alDel_ne _ _ _ (fun hc => hx.1 hc.symm)
    · intro t ht
      have hto : t ≠ sm o := ht o (List.mem_cons_self _ _)
      rw [hheapun1 t (fun o2 ho2 => ht o2 (List.mem_cons_of_mem _ ho2)), hheap2]
      exact alGet_alSet_ne _ _ _ _ (Ne.symm hto)
    · intro t ht
      have hto : t ≠ sm o := ht o (List.mem_cons_self _ _)
      rw [hserun1 t (fun o2 ho2 => ht o2 (List.mem_cons_of_mem _ ho2)), hser2]
      exact hsnd.mem_erase_iff.trans (by simp [hto])

theorem mref_update_run (w : World) (F s : Nat) (st : SS) (r : Reg)
    (objs m : List (String × Nat)) (sn sm : Nat → Nat) (rg rr : Nat → Reg)
    (hr : alGet st.heap s = some r)
    (hprevflag : r.hasPreviousValue = true)
    (hprev : r.previousValue = some (.dictRefs m))
    (hser : r.serial = s)
    (hne : dictEqB objs m = false)
    (hobjsreg : ∀ kv ∈ objs, alGet st.objTable kv.2 = some (sn kv.2))
    (hsnnd : (objs.map (fun kv => sn kv.2)).Nodup)
    (hsnheap : ∀ kv ∈ objs, alGet st.heap (sn kv.2) = some (rr (sn kv.2))
        ∧ (rr (sn kv.2)).dead = false)
    (hsns : ∀ kv ∈ objs, sn kv.2 ≠ s)
    (hvalsnd : (m.map Prod.snd).Nodup)
    (holdobjs : ∀ o ∈ m.map Prod.snd, alGet st.objTable o = some (sm o))
    (holdheap : ∀ o ∈ m.map Prod.snd, alGet st.heap (sm o) = some (rg o))
    (holdfields : ∀ o ∈ m.map Prod.snd, (rg o).dead = false ∧ (rg o).refcount = 1
      ∧ (rg o).valueIsReferences = false ∧ (rg o).serial = sm o ∧ (rg o).obj = o)
    (holdmem : ∀ o ∈ m.map Prod.snd, sm o ∈ st.serialTable)
    (holdinj : ∀ o1 ∈ m.map Prod.snd, ∀ o2 ∈ m.map Prod.snd, o1 ≠ o2 → sm o1 ≠ sm o2)
    (hsmnes : ∀ o ∈ m.map Prod.snd, sm o ≠ s)
    (hdisj : ∀ o ∈ m.map Prod.snd, ∀ kv ∈ objs, sm o ≠ sn kv.2)
    (hnewold : ∀ kv ∈ objs, kv.2 ∉ m.map Prod.snd)
    (hknd : (st.objTable.map Prod.fst).Nodup)
    (hsnd : st.serialTable.Nodup)
    (hfuel1 : objs.length + 1 ≤ F)
    (hfuel2 : (m.map Prod.snd).length + 1 ≤ F) :
    ∃ st1, maybesend_reference w (F + 1) s objs false st = .ok st1
      ∧ st1.sendBatch
          = st.sendBatch
            ++ [.msg (.valueMap s (objs.map (fun kv => (kv.1, sn kv.2))))]
            ++ (sortNat (m.map Prod.snd)).map (fun o => .msg (.delete (sm o)))
      ∧ st1.frames = st.frames := by
  -- the registered children are returned without state change
  have hregc : regChildren w F r.url objs st
      = .ok (st, objs.map (fun kv => (kv.1, sn kv.2))) :=
    regChildren_registered w objs F r.url st sn hfuel1 hobjsreg
  -- the increment pass touches only the new registrations
  have hsnnd' : ((objs.map (fun kv => (kv.1, sn kv.2))).map Prod.snd).Nodup := by
    rw [List.map_map]
    exact hsnnd
  have hincH : ∀ kv ∈ objs.map (fun kv => (kv.1, sn kv.2)),
      alGet st.heap kv.2 = some (rr kv.2) ∧ (rr kv.2).dead = false := by
    intro kv hkv
    obtain ⟨kv0, hkv0, rfl⟩ := List.mem_map.1 hkv
    exact hsnheap kv0 hkv0
  obtain ⟨stI, hIncRun, hIobj, hIser, hIbatch, hIframes, hIlast, hIbd, hIout,
      hInt, hIheap⟩ :=
    incList_run (objs.map (fun kv => (kv.1, sn kv.2))) st rr hsnnd' hincH
  have hIheapUn : ∀ t, (∀ kv ∈ objs, t ≠ sn kv.2) → alGet stI.heap t = alGet st.heap t := by
    intro t ht
    refine hIheap t ?_
    intro hmem
    rw [List.map_map] at hmem
    obtain ⟨kv0, hkv0, hkv0eq⟩ := List.mem_map.1 hmem
    exact ht kv0 hkv0 hkv0eq.symm
  -- the value message
  set stS : SS := send1 false
    (.msg (.valueMap s (objs.map (fun kv => (kv.1, sn kv.2))))) stI with hstS
  have hSobj : stS.objTable = st.objTable := by
    rw [hstS, send1_false_objTable, hIobj]
  have hSser : stS.serialTable = st.serialTable := by
    rw [hstS, send1_false_serialTable, hIser]
  have hSheapUn : ∀ t, (∀ kv ∈ objs, t ≠ sn kv.2) → alGet stS.heap t = alGet st.heap t := by
    intro t ht
    rw [hstS, send1_false_heap]
    exact hIheapUn t ht
  -- the release pass over the sorted old references
  have hmemiff : ∀ o, o ∈ sortNat (m.map Prod.snd) ↔ o ∈ m.map Prod.snd :=
    fun o => mem_sortNat
  obtain ⟨stD, hDecRun, hDbatch, hDframes, hDlast, hDobjnone, hDheapfin, hDsernot,
      hDobjun, hDheapun, hDserun, hDknd, hDsnd⟩ :=
    decOldRefs_cascade (sortNat (m.map Prod.snd)) F stS sm rg
      (by rw [sortNat_length]; exact hfuel2)
      (sortNat_nodup hvalsnd)
      (by intro o ho
          rw [hSobj]
          exact holdobjs o ((hmemiff o).1 ho))
      (by intro o ho
          rw [hSheapUn (sm o) (fun kv hkv => hdisj o ((hmemiff o).1 ho) kv hkv)]
          exact holdheap o ((hmemiff o).1 ho))
      (fun o ho => holdfields o ((hmemiff o).1 ho))
      (by intro o ho
          rw [hSser]
          exact holdmem o ((hmemiff o).1 ho))
      (fun o1 h1 o2 h2 hne2 =>
        holdinj o1 ((hmemiff o1).1 h1) o2 ((hmemiff o2).1 h2) hne2)
      (by rw [hSobj]; exact hknd)
      (by rw [hSser]; exact hsnd)
  -- previous value of s is untouched throughout
  have hDheapS : alGet stD.heap s = some r := by
    rw [hDheapun s (fun o ho => (hsmnes o ((hmemiff o).1 ho)).symm)]
    rw [hSheapUn s (fun kv hkv => (hsns kv hkv).symm)]
    exact hr
  -- the new references all survive the release pass
  have hDobjs : ∀ kv ∈ objs, (alGet stD.objTable kv.2).isSome := by
    intro kv hkv
    rw [hDobjun kv.2 (fun hc => hnewold kv hkv ((hmemiff kv.2).1 hc))]
    rw [hSobj, hobjsreg kv hkv]
    rfl
  -- the final set_previous
  have hSet : set_previous s (.dictRefs objs) true stD
      = .ok { stD with heap := alSet stD.heap s (regWithRefsPrev r objs) } := by
    rw [set_previous]
    rw [hDheapS, getK_some, except_bind_ok]
    rw [if_pos]
    · rfl
    · exact List.all_eq_true.2 (fun kv hkv => by simpa using hDobjs kv hkv)
  refine ⟨{ stD with heap := alSet stD.heap s (regWithRefsPrev r objs) }, ?_, ?_, ?_⟩
  · show maybesend_reference w (F + 1) s objs false st = _
    rw [maybesend_reference]
    rw [hr, getK_some, except_bind_ok, hregc, except_bind_ok]
    simp only [hr, getK_some, except_bind_ok, hprevflag, hprev, hser, prevDiffers,
      hne, Bool.not_true, Bool.false_or, Bool.not_false, if_true, Bool.or_self]
    rw [hIncRun, except_bind_ok]
    simp only [Bool.false_eq_true, if_false, except_bind_ok]
    rw [← hstS]
    simp only [capturedRefs, except_bind_ok]
    rw [hDecRun, except_bind_ok]
    exact hSet
  · show stD.sendBatch = _
    rw [hDbatch, hstS, send1_false_sendBatch, hIbatch]
  · show stD.frames = _
    rw [hDframes, hstS, send1_false_frames, hIframes]

theorem dec_refs_on_variant (F s : Nat) (st : SS) (r : Reg)
    (mv : List (String × Nat)) (sm : Nat → Nat) (rg : Nat → Reg)
    (hdead : r.dead = false) (hrc : r.refcount = 1)
    (hflag : r.valueIsReferences = true) (hser : r.serial = s)
    (hobj : alGet st.objTable r.obj = some s) (hsmem : s ∈ st.serialTable)
    (hvalsnd : (mv.map Prod.snd).Nodup)
    (holdobjs : ∀ o ∈ mv.map Prod.snd, alGet st.objTable o = some (sm o))
    (holdheap : ∀ o ∈ mv.map Prod.snd, alGet st.heap (sm o) = some (rg o))
    (holdfields : ∀ o ∈ mv.map Prod.snd, (rg o).dead = false ∧ (rg o).refcount = 1
      ∧ (rg o).valueIsReferences = false ∧ (rg o).serial = sm o ∧ (rg o).obj = o)
    (holdmem : ∀ o ∈ mv.map Prod.snd, sm o ∈ st.serialTable)
    (holdinj : ∀ o1 ∈ mv.map Prod.snd, ∀ o2 ∈ mv.map Prod.snd, o1 ≠ o2 → sm o1 ≠ sm o2)
    (hrootref : r.obj ∉ mv.map Prod.snd)
    (hsmnes : ∀ o ∈ mv.map Prod.snd, sm o ≠ s)
    (hknd : (st.objTable.map Prod.fst).Nodup) (hsnd : st.serialTable.Nodup)
    (hfuel : (mv.map Prod.snd).length + 1 ≤ F) :
    ∃ u, dec_refcount_and_maybe_notify (F + 1) s (withRefsPrevValue st s r mv) = .ok u
      ∧ u.sendBatch = st.sendBatch ++ [.msg (.delete s)]
          ++ (sortNat (mv.map Prod.snd)).map (fun o => .msg (.delete (sm o)))
      ∧ u.frames = st.frames := by
  obtain ⟨u, hrun, hbatch, hframes, _⟩ :=
    dec_refs_finalize_full F s (withRefsPrevValue st s r mv)
      ({ r with previousValue := some (.dictRefs mv) }) mv sm rg
      (alGet_alSet_self _ _ _) hdead hrc hflag rfl hser hobj hsmem hfuel hvalsnd
      holdobjs
      (fun o ho => by
        show alGet (alSet st.heap s _) (sm o) = _
        rw [alGet_alSet_ne _ _ _ _ (Ne.symm (hsmnes o ho))]
        exact holdheap o ho)
      holdfields holdmem holdinj hrootref hsmnes hknd hsnd
  exact ⟨u, hrun, hbatch, hframes⟩

theorem mref_on_variant (w : World) (F s : Nat) (st : SS) (r : Reg)
    (mv objs : List (String × Nat)) (sn sm : Nat → Nat) (rg rr : Nat → Reg)
    (hprevflag : r.hasPreviousValue = true) (hser : r.serial = s)
    (hne : dictEqB objs mv = false)
    (hobjsreg : ∀ kv ∈ objs, alGet st.objTable kv.2 = some (sn kv.2))
    (hsnnd : (objs.map (fun kv => sn kv.2)).Nodup)
    (hsnheap : ∀ kv ∈ objs, alGet st.heap (sn kv.2) = some (rr (sn kv.2))
      ∧ (rr (sn kv.2)).dead = false)
    (hsns : ∀ kv ∈ objs, sn kv.2 ≠ s)
    (hvalsnd : (mv.map Prod.snd).Nodup)
    (holdobjs : ∀ o ∈ mv.map Prod.snd, alGet st.objTable o = some (sm o))
    (holdheap : ∀ o ∈ mv.map Prod.snd, alGet st.heap (sm o) = some (rg o))
    (holdfields : ∀ o ∈ mv.map Prod.snd, (rg o).dead = false ∧ (rg o).refcount = 1
      ∧ (rg o).valueIsReferences = false ∧ (rg o).serial = sm o ∧ (rg o).obj = o)
    (holdmem : ∀ o ∈ mv.map Prod.snd, sm o ∈ st.serialTable)
    (holdinj : ∀ o1 ∈ mv.map Prod.snd, ∀ o2 ∈ mv.map Prod.snd, o1 ≠ o2 → sm o1 ≠ sm o2)
    (hsmnes : ∀ o ∈ mv.map Prod.snd, sm o ≠ s)
    (hdisj : ∀ o ∈ mv.map Prod.snd, ∀ kv ∈ objs, sm o ≠ sn kv.2)
    (hnewold : ∀ kv ∈ objs, kv.2 ∉ mv.map Prod.snd)
    (hknd : (st.objTable.map Prod.fst).Nodup) (hsnd : st.serialTable.Nodup)
    (hfuel1 : objs.length + 1 ≤ F) (hfuel2 : (mv.map Prod.snd).length + 1 ≤ F) :
    ∃ v, maybesend_reference w (F + 1) s objs false (withRefsPrevValue st s r mv) = .ok v
      ∧ v.sendBatch = st.sendBatch
          ++ [.msg (.valueMap s (objs.map (fun kv => (kv.1, sn kv.2))))]
          ++ (sortNat (mv.map Prod.snd)).map (fun o => .msg (.delete (sm o)))
      ∧ v.frames = st.frames := by
  obtain ⟨v, hrun, hbatch, hframes⟩ :=
    mref_update_run w F s (withRefsPrevValue st s r mv)
      ({ r with previousValue := some (.dictRefs mv) }) objs mv sn sm rg rr
      (alGet_alSet_self _ _ _) hprevflag rfl hser hne hobjsreg hsnnd
      (fun kv hkv => by
        constructor
        · show alGet (alSet st.heap s _) (sn kv.2) = _
          rw [alGet_alSet_ne _ _ _ _ (Ne.symm (hsns kv hkv))]
          exact (hsnheap kv hkv).1
        · exact (hsnheap kv hkv).2)
      hsns hvalsnd holdobjs
      (fun o ho => by
        show alGet (alSet st.heap s _) (sm o) = _
        rw [alGet_alSet_ne _ _ _ _ (Ne.symm (hsmnes o ho))]
        exact holdheap o ho)
      holdfields holdmem holdinj hsmnes hdisj hnewold hknd hsnd hfuel1 hfuel2
  exact ⟨v, hrun, hbatch, hframes⟩

/-- C9: the decrement order of a simultaneous multi-reference release is
the ascending sorted order of the released objects, independent of the
iteration order of the stored reference dict - the model of the only
nondeterminism CPython leaves here - so two runs over the same value
changes emit identical wire output. For any two permutations m1 and m2 of
one stored dict: on the finalization path, dec_refcount_and_maybe_notify
produces the same batch (delete of the registration followed by deletes of
the released serials in ascending object order) and the same frames from
either storage order; on the reference-update path, maybesend_reference
likewise produces the identical value message followed by the identical
delete sequence. -/
theorem c9_release_order_two_run_determinism (w : World) (F s : Nat) (st : SS)
    (r : Reg) (m1 m2 objs : List (String × Nat)) (sn sm : Nat → Nat)
    (rg rr : Nat → Reg)
    (hm : m1.Perm m2)
    (hkeys1 : (m1.map Prod.fst).Nodup)
    (hr : alGet st.heap s = some r) (hdead : r.dead = false)
    (hrc : r.refcount = 1) (hflag : r.valueIsReferences = true)
    (hprevflag : r.hasPreviousValue = true) (hser : r.serial = s)
    (hobj : alGet st.objTable r.obj = some s) (hsmem : s ∈ st.serialTable)
    (hvalsnd : (m1.map Prod.snd).Nodup)
    (holdobjs : ∀ o ∈ m1.map Prod.snd, alGet st.objTable o = some (sm o))
    (holdheap : ∀ o ∈ m1.map Prod.snd, alGet st.heap (sm o) = some (rg o))
    (holdfields : ∀ o ∈ m1.map Prod.snd, (rg o).dead = false ∧ (rg o).refcount = 1
      ∧ (rg o).valueIsReferences = false ∧ (rg o).serial = sm o ∧ (rg o).obj = o)
    (holdmem : ∀ o ∈ m1.map Prod.snd, sm o ∈ st.serialTable)
    (holdinj : ∀ o1 ∈ m1.map Prod.snd, ∀ o2 ∈ m1.map Prod.snd, o1 ≠ o2 → sm o1 ≠ sm o2)
    (hrootref : r.obj ∉ m1.map Prod.snd)
    (hsmnes : ∀ o ∈ m1.map Prod.snd, sm o ≠ s)
    (hknd : (st.objTable.map Prod.fst).Nodup) (hsnd : st.serialTable.Nodup)
    (hne : dictEqB objs m1 = false)
    (hobjsreg : ∀ kv ∈ objs, alGet st.objTable kv.2 = some (sn kv.2))
    (hsnnd : (objs.map (fun kv => sn kv.2)).Nodup)
    (hsnheap : ∀ kv ∈ objs, alGet st.heap (sn kv.2) = some (rr (sn kv.2))
      ∧ (rr (sn kv.2)).dead = false)
    (hsns : ∀ kv ∈ objs, sn kv.2 ≠ s)
    (hdisj : ∀ o ∈ m1.map Prod.snd, ∀ kv ∈ objs, sm o ≠ sn kv.2)
    (hnewold : ∀ kv ∈ objs, kv.2 ∉ m1.map Prod.snd)
    (hfuel1 : objs.length + 1 ≤ F) (hfuel2 : (m1.map Prod.snd).length + 1 ≤ F) :
    (∃ u1 u2,
      dec_refcount_and_maybe_notify (F + 1) s (withRefsPrevValue st s r m1) = .ok u1
      ∧ dec_refcount_and_maybe_notify (F + 1) s (withRefsPrevValue st s r m2) = .ok u2
      ∧ u1.sendBatch = st.sendBatch ++ [.msg (.delete s)]
          ++ (sortNat (m1.map Prod.snd)).map (fun o => .msg (.delete (sm o)))
      ∧ u2.sendBatch = u1.sendBatch
      ∧ u2.frames = u1.frames)
    ∧ (∃ v1 v2,
      maybesend_reference w (F + 1) s objs false (withRefsPrevValue st s r m1) = .ok v1
      ∧ maybesend_reference w (F + 1) s objs false (withRefsPrevValue st s r m2) = .ok v2
      ∧ v1.sendBatch = st.sendBatch
          ++ [.msg (.valueMap s (objs.map (fun kv => (kv.1, sn kv.2))))]
          ++ (sortNat (m1.map Prod.snd)).map (fun o => .msg (.delete (sm o)))
      ∧ v2.sendBatch = v1.sendBatch
      ∧ v2.frames = v1.frames) := by
  have hva : (m1.map Prod.snd).Perm (m2.map Prod.snd) := hm.map Prod.snd
  have hsorteq : sortNat (m1.map Prod.snd) = sortNat (m2.map Prod.snd) :=
    sortNat_eq_of_perm hva
  have hv2 : ∀ o ∈ m2.map Prod.snd, o ∈ m1.map Prod.snd := fun o ho => hva.mem_iff.2 ho
  have hvalsnd2 : (m2.map Prod.snd).Nodup := hva.nodup_iff.1 hvalsnd
  have hne2 : dictEqB objs m2 = false := by
    rw [← dictEqB_perm_right hm hkeys1]
    exact hne
  constructor
  · -- finalization path
    obtain ⟨u1, hrun1, hbatch1, hframes1⟩ :=
      dec_refs_on_variant F s st r m1 sm rg hdead hrc hflag hser hobj
        hsmem hvalsnd holdobjs holdheap holdfields holdmem holdinj hrootref hsmnes
        hknd hsnd hfuel2
    obtain ⟨u2, hrun2, hbatch2, hframes2⟩ :=
      dec_refs_on_variant F s st r m2 sm rg hdead hrc hflag hser hobj
        hsmem hvalsnd2
        (fun o ho => holdobjs o (hv2 o ho))
        (fun o ho => holdheap o (hv2 o ho))
        (fun o ho => holdfields o (hv2 o ho))
        (fun o ho => holdmem o (hv2 o ho))
        (fun o1 h1 o2 h2 hnn => holdinj o1 (hv2 o1 h1) o2 (hv2 o2 h2) hnn)
        (fun hc => hrootref (hv2 r.obj hc))
        (fun o ho => hsmnes o (hv2 o ho))
        hknd hsnd (by rw [← hva.length_eq]; exact hfuel2)
    refine ⟨u1, u2, hrun1, hrun2, hbatch1, ?_, ?_⟩
    · rw [hbatch2, hbatch1, hsorteq]
    · rw [hframes2, hframes1]
  · -- reference-update path
    obtain ⟨v1, hrun1, hbatch1, hframes1⟩ :=
      mref_on_variant w F s st r m1 objs sn sm rg rr hprevflag hser hne
        hobjsreg hsnnd hsnheap hsns hvalsnd holdobjs holdheap holdfields holdmem
        holdinj hsmnes hdisj hnewold hknd hsnd hfuel1 hfuel2
    obtain ⟨v2, hrun2, hbatch2, hframes2⟩ :=
      mref_on_variant w F s st r m2 objs sn sm rg rr hprevflag hser hne2
        hobjsreg hsnnd hsnheap hsns hvalsnd2
        (fun o ho => holdobjs o (hv2 o ho))
        (fun o ho => holdheap o (hv2 o ho))
        (fun o ho => holdfields o (hv2 o ho))
        (fun o ho => holdmem o (hv2 o ho))
        (fun o1 h1 o2 h2 hnn => holdinj o1 (hv2 o1 h1) o2 (hv2 o2 h2) hnn)
        (fun o ho => hsmnes o (hv2 o ho))
        (fun o ho kv hkv => hdisj o (hv2 o ho) kv hkv)
        (fun kv hkv hc => hnewold kv hkv (hv2 kv.2 hc))
        hknd hsnd hfuel1 (by rw [← hva.length_eq]; exact hfuel2)
    refine ⟨v1, v2, hrun1, hrun2, hbatch1, ?_, ?_⟩
    · rw [hbatch2, hbatch1, hsorteq]
    · rw [hframes2, hframes1]


/-- C9 witness: with the old references stored as b-then-a versus
a-then-b, both finalization runs batch delete 5, delete 7, delete 6 (the
serials of objects 10 and 20 in ascending object order) and agree exactly;
the update runs likewise agree. -/
theorem c9_release_order_witness :
    ∃ u1 u2,
      dec_refcount_and_maybe_notify 4 5
          (withRefsPrevValue stC9 5 regC9top [("b", 20), ("a", 10)]) = .ok u1
      ∧ dec_refcount_and_maybe_notify 4 5
          (withRefsPrevValue stC9 5 regC9top [("a", 10), ("b", 20)]) = .ok u2
      ∧ u1.sendBatch = [.msg (.delete 5), .msg (.delete 7), .msg (.delete 6)]
      ∧ u2.sendBatch = u1.sendBatch
      ∧ u2.frames = u1.frames := by
  obtain ⟨⟨u1, u2, hr1, hr2, hb1, hb2, hf2⟩, _⟩ :=
    c9_release_order_two_run_determinism wKinds 3 5 stC9 regC9top
      [("b", 20), ("a", 10)] [("a", 10), ("b", 20)] [("x", 30)] snC9 smC1 rgC1 rrC9
      (by decide) (by decide) (by decide) (by decide) (by decide) (by decide)
      (by decide) (by decide) (by decide) (by decide) (by decide) (by decide)
      (by decide) (by decide) (by decide) (by decide) (by decide) (by decide)
      (by decide) (by decide) (by decide) (by decide) (by decide) (by decide)
      (by decide) (by decide) (by decide) (by decide) (by decide)
  exact ⟨u1, u2, hr1, hr2, hb1.trans (by decide), hb2, hf2⟩

end StateStream

namespace Persist

/-- C7 (evidence for the code bug): the claim scenario run against the
spec-modelled recompute-and-compare change detector. Starting from the
Snapshot with value 0 and nested value 0: mutating the root value to 1 and
advancing one notification cycle yields 1 callback, as the claim states;
but mutating to 2 and advancing yields a second callback, where the claim
and the in-repo test require the total to remain 1; the cycle with no
change adds none; and the nested mutation to 3 makes the modelled total 3,
where the claim requires 2. The Snapshot values observed by get() agree
with the claim throughout. -/
theorem c7_detector_scenario_trace :
    (detectorGet (detectorInit specimen0) = .vs 0 (.vs 0 .emptySnap))
    ∧ detTrace1.calls = 1
    ∧ detTrace2.calls = 2
    ∧ detectorGet detTrace2 = .vs 2 (.vs 0 .emptySnap)
    ∧ detTrace3.calls = 2
    ∧ detTrace4.calls = 3
    ∧ detectorGet detTrace4 = .vs 2 (.vs 3 .emptySnap) := by
  decide

/-- C8: the persistence round trip over the spec-modelled file glue. With a
missing state file the root keeps its value 0. Setting the value to 1 and
letting sync() resolve, a fresh session over the same file observes 1;
setting the value without waiting for the delayed write leaves the file
unwritten, and a fresh session observes the pre-change value 0. -/
theorem c8_persistence_round_trip :
    rootValue pfgA.root = 0
    ∧ pfgB.file = none
    ∧ rootValue pfgFreshSynced.root = 1
    ∧ rootValue pfgFreshUnsynced.root = 0 := by
  decide

end Persist
